import Mathlib

/-!
Verification development for the Web Push delivery subsystem of the
`weather` repository (`src/notify.rs`): RFC 8291 `aes128gcm` content
encryption, RFC 8292 VAPID JWT construction, origin extraction, and the
per-subscription dispatch loop.

Bytes are modelled as `List Nat`, each element intended `< 256`; machine
integers are `Nat` with explicit reductions `% 2^w` where overflow matters.
Cryptographic primitives used by the Rust code through its dependencies
(`sha2`, `hkdf`, `aes-gcm`, `p256`, `base64`) are embedded concretely from
their defining standards (FIPS 180-4, RFC 2104, RFC 5869, FIPS 197,
NIST SP 800-38D, SEC1/FIPS 186, RFC 6979, RFC 4648) so that every
definition is executable; known test vectors for each primitive are proved
below by `decide`.
-/

set_option maxRecDepth 100000

namespace Weather

/-- `2^32`, the modulus of 32-bit arithmetic. -/
def M32 : Nat := 4294967296

/-- Interpret a string as its byte sequence (all constants involved are ASCII,
where UTF-8 bytes coincide with code points). -/
def strBytes (s : String) : List Nat := s.data.map Char.toNat

/-- Every element of the list is a byte value. -/
def allBytes (l : List Nat) : Prop := ∀ b ∈ l, b < 256

instance allBytesDecidable (l : List Nat) : Decidable (allBytes l) := by
  unfold allBytes; infer_instance

/-- Big-endian bytes of `n`, least significant first (helper). -/
def leBytesAux : Nat → Nat → List Nat
  | 0, _ => []
  | len + 1, n => n % 256 :: leBytesAux len (n / 256)

/-- Fixed-width big-endian byte encoding of `n` (width `len`). -/
def beBytes (len n : Nat) : List Nat := (leBytesAux len n).reverse

/-- Big-endian interpretation of a byte list as a natural number. -/
def natFromBytes (l : List Nat) : Nat := l.foldl (fun acc b => acc * 256 + b) 0

/-- Pointwise xor of two byte lists (length = the shorter of the two). -/
def xorBytes (a b : List Nat) : List Nat := List.zipWith Nat.xor a b

theorem leBytesAux_length (len n : Nat) : (leBytesAux len n).length = len := by
  induction len generalizing n with
  | zero => rfl
  | succ k ih => simp [leBytesAux, ih]

theorem beBytes_length (len n : Nat) : (beBytes len n).length = len := by
  simp [beBytes, leBytesAux_length]

theorem leBytesAux_lt (len n : Nat) : ∀ b ∈ leBytesAux len n, b < 256 := by
  induction len generalizing n with
  | zero => intro b hb; simp [leBytesAux] at hb
  | succ k ih =>
    intro b hb
    simp only [leBytesAux, List.mem_cons] at hb
    rcases hb with h | h
    · exact h ▸ Nat.mod_lt _ (by omega)
    · exact ih _ b h

theorem beBytes_bytes (len n : Nat) : allBytes (beBytes len n) := by
  intro b hb
  rw [beBytes, List.mem_reverse] at hb
  exact leBytesAux_lt len n b hb

/-- Split a list into chunks of `sz` bytes (fuelled structural recursion;
`fuel ≥ l.length` makes it total on `l`). -/
def chunksAux (sz : Nat) : Nat → List Nat → List (List Nat)
  | 0, _ => []
  | _, [] => []
  | fuel + 1, l => l.take sz :: chunksAux sz fuel (l.drop sz)

def chunks (sz : Nat) (l : List Nat) : List (List Nat) := chunksAux sz l.length l

/-! ### Strict-evaluation helper -/

/-- Apply `k` to `x` after forcing `x` to a numeral: the two branches are
identical, but deciding the condition makes definitional evaluation compute
`x` eagerly, which keeps evaluation-stack depth bounded in long iteration
chains. Semantically `withForced x k = k x` (`withForced_eq`). -/
def withForced (x : Nat) (k : Nat → Nat) : Nat := if x % 2 = 0 then k x else k x

theorem withForced_eq (x : Nat) (k : Nat → Nat) : withForced x k = k x := ite_self _

/-! ### SHA-256 (FIPS 180-4), the hash underlying `sha2::Sha256`

Word sequences (the 8-word chaining state, the 64-word message schedule) are
packed big-endian into a single `Nat`, word `i` of `n` being
`(pack >>> (32 * (n - 1 - i))) % 2^32`; all word arithmetic is reduced
`% 2^32`. -/

namespace SHA256

/-- Right rotation of a 32-bit word. -/
def rotr (n x : Nat) : Nat := ((x >>> n) ||| (x <<< (32 - n))) % M32

/-- 32-bit bitwise complement. -/
def bnot (x : Nat) : Nat := x ^^^ (M32 - 1)

def bigSigma0 (x : Nat) : Nat := rotr 2 x ^^^ rotr 13 x ^^^ rotr 22 x
def bigSigma1 (x : Nat) : Nat := rotr 6 x ^^^ rotr 11 x ^^^ rotr 25 x
def smallSigma0 (x : Nat) : Nat := rotr 7 x ^^^ rotr 18 x ^^^ (x >>> 3)
def smallSigma1 (x : Nat) : Nat := rotr 17 x ^^^ rotr 19 x ^^^ (x >>> 10)
def ch (x y z : Nat) : Nat := (x &&& y) ^^^ (bnot x &&& z)
def maj (x y z : Nat) : Nat := (x &&& y) ^^^ (x &&& z) ^^^ (y &&& z)

/-- The first 64 primes, whose roots generate the SHA-256 constants. -/
def primes64 : List Nat :=
  [2, 3, 5, 7, 11, 13, 17, 19, 23, 29, 31, 37, 41, 43, 47, 53,
   59, 61, 67, 71, 73, 79, 83, 89, 97, 101, 103, 107, 109, 113, 127, 131,
   137, 139, 149, 151, 157, 163, 167, 173, 179, 181, 191, 193, 197, 199, 211, 223,
   227, 229, 233, 239, 241, 251, 257, 263, 269, 271, 277, 281, 283, 293, 307, 311]

/-- Integer square root by binary digits (`fuel` = output bits). -/
def isqrtAux (n : Nat) : Nat → Nat → Nat
  | 0, acc => acc
  | f + 1, acc =>
    let c := acc + 2 ^ f
    if c * c ≤ n then isqrtAux n f c else isqrtAux n f acc

/-- Integer cube root by binary digits. -/
def icbrtAux (n : Nat) : Nat → Nat → Nat
  | 0, acc => acc
  | f + 1, acc =>
    let c := acc + 2 ^ f
    if c * c * c ≤ n then icbrtAux n f c else icbrtAux n f acc

/-- FIPS 180-4 §4.2.2: round constant `i` is the first 32 bits of the
fractional part of the cube root of the `i`-th prime,
`⌊2^32 · ∛p⌋ mod 2^32`. -/
def K : List Nat := primes64.map (fun p => icbrtAux (p * 2 ^ 96) 40 0 % 2 ^ 32)

/-- Pack a list of 32-bit words big-endian into one `Nat`. -/
def packWords (l : List Nat) : Nat := l.foldl (fun acc x => acc * 2 ^ 32 + x) 0

/-- The round constants, packed. -/
def KP : Nat := packWords K

/-- Pack the 8-word state `[a,b,c,d,e,f,g,h]`. -/
def pack8 (a b c d e f g h : Nat) : Nat :=
  ((((((a * M32 + b) * M32 + c) * M32 + d) * M32 + e) * M32 + f) * M32 + g) * M32 + h

/-- Extend the 16 packed message words to 64: each new word is
`σ₁(w[t-2]) + w[t-7] + σ₀(w[t-15]) + w[t-16]` appended at the low end. -/
def scheduleAux : Nat → Nat → Nat
  | 0, ws => ws
  | fuel + 1, ws =>
    let nw := (smallSigma1 ((ws >>> 32) % M32) + (ws >>> 192) % M32 +
               smallSigma0 ((ws >>> 448) % M32) + (ws >>> 480) % M32) % M32
    withForced (ws * M32 + nw) (scheduleAux fuel)

/-- The 64-word message schedule of a 64-byte block. -/
def schedule (block : List Nat) : Nat := scheduleAux 48 (natFromBytes block)

/-- The 64 compression rounds; with `fuel` rounds remaining, the current round
index is `64 - fuel`, whose constant and schedule word sit at bit offset
`32 * (fuel - 1)` of the packed sequences. -/
def roundsAux : Nat → Nat → Nat → Nat
  | 0, _, st => st
  | f + 1, ws, st =>
    let a := (st >>> 224) % M32; let b := (st >>> 192) % M32
    let c := (st >>> 160) % M32; let d := (st >>> 128) % M32
    let e := (st >>> 96) % M32; let fv := (st >>> 64) % M32
    let g := (st >>> 32) % M32; let h := st % M32
    let ki := (KP >>> (32 * f)) % M32
    let wi := (ws >>> (32 * f)) % M32
    let t1 := (h + bigSigma1 e + ch e fv g + ki + wi) % M32
    let t2 := (bigSigma0 a + maj a b c) % M32
    withForced (pack8 ((t1 + t2) % M32) a b c ((d + t1) % M32) e fv g) (roundsAux f ws)

/-- Process one 64-byte block: run the rounds, then add the previous state
wordwise `% 2^32`. -/
def compress (st : Nat) (block : List Nat) : Nat :=
  let out := roundsAux 64 (schedule block) st
  pack8 (((st >>> 224) + (out >>> 224)) % M32) (((st >>> 192) + (out >>> 192)) % M32)
    (((st >>> 160) + (out >>> 160)) % M32) (((st >>> 128) + (out >>> 128)) % M32)
    (((st >>> 96) + (out >>> 96)) % M32) (((st >>> 64) + (out >>> 64)) % M32)
    (((st >>> 32) + (out >>> 32)) % M32) ((st + out) % M32)

/-- FIPS 180-4 padding: append `0x80`, zeros, and the 64-bit bit length,
reaching a multiple of 64 bytes. -/
def pad (msg : List Nat) : List Nat :=
  let l := msg.length
  let zeros := (64 - (l + 9) % 64) % 64
  msg ++ 0x80 :: List.replicate zeros 0 ++ beBytes 8 (l * 8)

/-- FIPS 180-4 §5.3.3: the initial hash value is the first 32 bits of the
fractional parts of the square roots of the first 8 primes (packed). -/
def H0 : Nat :=
  packWords ((primes64.take 8).map (fun p => isqrtAux (p * 2 ^ 64) 40 0 % 2 ^ 32))

/-- SHA-256 digest (32 bytes) of a byte list. -/
def sha256 (msg : List Nat) : List Nat :=
  beBytes 32 ((chunks 64 (pad msg)).foldl compress H0)

end SHA256

export SHA256 (sha256)

theorem sha256_length (msg : List Nat) : (sha256 msg).length = 32 := beBytes_length 32 _

theorem sha256_bytes (msg : List Nat) : allBytes (sha256 msg) := beBytes_bytes 32 _

/-- FIPS 180-4 test vector: `SHA-256("abc")`. -/
theorem sha256_abc_vector :
    sha256 (strBytes "abc") =
      beBytes 32 0xba7816bf8f01cfea414140de5dae2223b00361a396177a9cb410ff61f20015ad := by
  decide

/-! ### HMAC-SHA256 (RFC 2104) and HKDF-SHA256 (RFC 5869),
the primitives behind `hkdf::Hkdf<Sha256>` -/

/-- HMAC-SHA256: key is hashed if longer than the 64-byte block, then
zero-padded; the digest is `H((k ⊕ opad) ‖ H((k ⊕ ipad) ‖ msg))`. -/
def hmacSha256 (key msg : List Nat) : List Nat :=
  let k0 := if key.length > 64 then sha256 key else key
  let k := k0 ++ List.replicate (64 - k0.length) 0
  let ipad := xorBytes k (List.replicate 64 0x36)
  let opad := xorBytes k (List.replicate 64 0x5c)
  sha256 (opad ++ sha256 (ipad ++ msg))

theorem hmacSha256_length (key msg : List Nat) : (hmacSha256 key msg).length = 32 :=
  sha256_length _

namespace HKDF

/-- RFC 5869 extract: `PRK = HMAC-Hash(salt, IKM)` (the `hkdf` crate's
`Hkdf::new(Some(salt), ikm)`, as `notify.rs` always calls it). -/
def extract (salt ikm : List Nat) : List Nat := hmacSha256 salt ikm

/-- Iterate `T(i+1) = HMAC-PRK(T(i) ‖ info ‖ [i+1])`, concatenating the
blocks. -/
def expandAux (prk info : List Nat) : Nat → Nat → List Nat → List Nat
  | 0, _, _ => []
  | rounds + 1, i, t =>
    let ti := hmacSha256 prk (t ++ info ++ [i % 256])
    ti ++ expandAux prk info rounds (i + 1) ti

/-- RFC 5869 expand: fails (as the `hkdf` crate's `expand` does) iff the
requested length exceeds `255 * 32` bytes. -/
def expand (prk info : List Nat) (len : Nat) : Option (List Nat) :=
  if len > 255 * 32 then none
  else some ((expandAux prk info ((len + 31) / 32) 1 []).take len)

theorem expandAux_length (prk info : List Nat) (rounds : Nat) :
    ∀ i t, (expandAux prk info rounds i t).length = rounds * 32 := by
  induction rounds with
  | zero => intro i t; rfl
  | succ r ih =>
    intro i t
    simp only [expandAux, List.length_append, hmacSha256_length, ih]
    ring

theorem expand_length (prk info : List Nat) (len : Nat) (h : len ≤ 255 * 32) :
    ∃ okm, expand prk info len = some okm ∧ okm.length = len := by
  refine ⟨(expandAux prk info ((len + 31) / 32) 1 []).take len, ?_, ?_⟩
  · unfold expand
    rw [if_neg (by omega)]
  · rw [List.length_take, expandAux_length]
    omega

end HKDF

/-- The composition performed by `Hkdf::<Sha256>::new(Some(salt), ikm)`
followed by `.expand(info, okm)`. -/
def hkdfSha256 (salt ikm info : List Nat) (len : Nat) : Option (List Nat) :=
  HKDF.expand (HKDF.extract salt ikm) info len

/-- RFC 4231 test case 1: HMAC-SHA256 with key `0x0b × 20`, data "Hi There". -/
theorem hmac_rfc4231_vector :
    hmacSha256 (List.replicate 20 0x0b) (strBytes "Hi There") =
      beBytes 32 0xb0344c61d8db38535ca8afceaf0bf12b881dc200c9833da726e9376c2e32cff7 := by
  decide

/-- RFC 5869 appendix A.1 test case: HKDF-SHA256 basic case, L = 42. -/
theorem hkdf_rfc5869_vector :
    hkdfSha256 [0x00, 0x01, 0x02, 0x03, 0x04, 0x05, 0x06, 0x07, 0x08, 0x09,
        0x0a, 0x0b, 0x0c]
      (List.replicate 22 0x0b)
      [0xf0, 0xf1, 0xf2, 0xf3, 0xf4, 0xf5, 0xf6, 0xf7, 0xf8, 0xf9] 42 =
      some (beBytes 42
        0x3cb25f25faacd57a90434f64d0362f2a2d2d0a90cf1a5a4c5db02d56ecc4c5bf34007208d5b887185865) := by
  decide

/-! ### AES-128 (FIPS 197) and GCM (NIST SP 800-38D),
the AEAD behind `aes_gcm::Aes128Gcm`

The 16-byte AES state is packed big-endian into one `Nat` (byte `i` of the
byte stream at bit offset `8 * (15 - i)`); FIPS 197 maps stream byte `4c + r`
to state cell `s[r][c]`, so each aligned 4-byte group of the stream is one
state column. -/

namespace AES

/-- Multiplication by `x` in GF(2^8) modulo `x^8 + x^4 + x^3 + x + 1`. -/
def xtime (b : Nat) : Nat := if b < 128 then b * 2 else (b * 2) ^^^ 0x11b

/-- GF(2^8) product, by shift-and-add over 8 bits. -/
def gmulAux : Nat → Nat → Nat → Nat → Nat
  | 0, _, _, acc => acc
  | f + 1, a, b, acc =>
    gmulAux f (xtime a) (b / 2) (if b % 2 = 1 then acc ^^^ a else acc)

def gmul (a b : Nat) : Nat := gmulAux 8 a b 0

/-- `b^254 = b⁻¹` in GF(2^8) (and `0 ↦ 0`), by square-and-multiply. -/
def gpowAux : Nat → Nat → Nat → Nat → Nat
  | 0, _, _, acc => acc
  | f + 1, a, e, acc =>
    gpowAux f (gmul a a) (e / 2) (if e % 2 = 1 then gmul acc a else acc)

def ginv (b : Nat) : Nat := gpowAux 8 b 254 1

/-- Rotate an 8-bit value left by `n`. -/
def rotl8 (n x : Nat) : Nat := ((x <<< n) ||| (x >>> (8 - n))) % 256

/-- The S-box as defined algebraically in FIPS 197 §5.1.1: multiplicative
inverse followed by the affine transformation. -/
def sboxAlg (b : Nat) : Nat :=
  let x := ginv (b % 256)
  x ^^^ rotl8 1 x ^^^ rotl8 2 x ^^^ rotl8 3 x ^^^ rotl8 4 x ^^^ 0x63

/-- The 256 S-box values packed big-endian into one `Nat` (entry 0 highest);
proved equal to `sboxAlg` entrywise in `sbox_matches_alg`. -/
def SBOXP : Nat :=
  (((((((0x637c777bf26b6fc53001672bfed7ab76ca82c97dfa5947f0add4a2af9ca472c0
   * 2 ^ 256 + 0xb7fd9326363ff7cc34a5e5f171d8311504c723c31896059a071280e2eb27b275)
   * 2 ^ 256 + 0x09832c1a1b6e5aa0523bd6b329e32f8453d100ed20fcb15b6acbbe394a4c58cf)
   * 2 ^ 256 + 0xd0efaafb434d338545f9027f503c9fa851a3408f929d38f5bcb6da2110fff3d2)
   * 2 ^ 256 + 0xcd0c13ec5f974417c4a77e3d645d197360814fdc222a908846eeb814de5e0bdb)
   * 2 ^ 256 + 0xe0323a0a4906245cc2d3ac629195e479e7c8376d8dd54ea96c56f4ea657aae08)
   * 2 ^ 256 + 0xba78252e1ca6b4c6e8dd741f4bbd8b8a703eb5664803f60e613557b986c11d9e)
   * 2 ^ 256 + 0xe1f8981169d98e949b1e87e9ce5528df8ca1890dbfe6426841992d0fb054bb16)

/-- S-box lookup, as a shift into the packed table. -/
def sbox (b : Nat) : Nat := (SBOXP >>> (8 * (255 - b % 256))) % 256

theorem sbox_matches_alg : ∀ b < 256, sbox b = sboxAlg b := by decide

/-- The round-constant words `rcon[i] = [RC[i], 0, 0, 0]`. -/
def rconW : List Nat :=
  [0x01000000, 0x02000000, 0x04000000, 0x08000000, 0x10000000,
   0x20000000, 0x40000000, 0x80000000, 0x1b000000, 0x36000000]

/-- Apply the S-box to each byte of a 32-bit word. -/
def subWord (w : Nat) : Nat :=
  ((sbox ((w >>> 24) % 256) * 256 + sbox ((w >>> 16) % 256)) * 256 +
    sbox ((w >>> 8) % 256)) * 256 + sbox (w % 256)

/-- Rotate a 32-bit word left by one byte. -/
def rotWord (w : Nat) : Nat := ((w <<< 8) ||| (w >>> 24)) % M32

/-- AES-128 key expansion (FIPS 197 §5.2): grow the packed word sequence from
the 4 key words to 44; with `i` words present the previous word is the low
word and `w[i-4]` sits at bit offset 96. -/
def expandKeyAux : Nat → Nat → Nat
  | 0, kw => kw
  | f + 1, kw =>
    let i := 44 - (f + 1)
    let temp := kw % M32
    let temp := if i % 4 = 0 then subWord (rotWord temp) ^^^ rconW.getD (i / 4 - 1) 0
                else temp
    withForced (kw * M32 + (((kw >>> 96) % M32) ^^^ temp)) (expandKeyAux f)

/-- The 44 expanded key words, packed (input: the 16-byte key, packed). -/
def expandKey (key : Nat) : Nat := expandKeyAux 40 key

/-- Round key `r` (a 128-bit value): words `4r..4r+3` of the expansion. -/
def roundKey (kw r : Nat) : Nat := (kw >>> (32 * (40 - 4 * r))) % 2 ^ 128

/-- S-box applied to each byte of the packed state. -/
def subBytesP (st : Nat) : Nat :=
  (List.range 16).foldl (fun acc i => acc * 256 + sbox ((st >>> (8 * (15 - i))) % 256)) 0

/-- FIPS 197 ShiftRows in stream indexing: output stream byte `4c + r` comes
from stream byte `4 * ((c + r) % 4) + r`. -/
def shiftRowsP (st : Nat) : Nat :=
  [0, 5, 10, 15, 4, 9, 14, 3, 8, 13, 2, 7, 12, 1, 6, 11].foldl
    (fun acc i => acc * 256 + (st >>> (8 * (15 - i))) % 256) 0

/-- MixColumns on one column `(a, b, c, d)`. -/
def mixCol (a b c d : Nat) : Nat :=
  ((((gmul 2 a ^^^ gmul 3 b ^^^ c ^^^ d) * 256 +
     (a ^^^ gmul 2 b ^^^ gmul 3 c ^^^ d)) * 256 +
     (a ^^^ b ^^^ gmul 2 c ^^^ gmul 3 d)) * 256 +
     (gmul 3 a ^^^ b ^^^ c ^^^ gmul 2 d))

/-- MixColumns on the packed state, column by column. -/
def mixColumnsP (st : Nat) : Nat :=
  (List.range 4).foldl
    (fun acc c => acc * 2 ^ 32 + mixCol ((st >>> (8 * (15 - 4 * c))) % 256)
      ((st >>> (8 * (14 - 4 * c))) % 256) ((st >>> (8 * (13 - 4 * c))) % 256)
      ((st >>> (8 * (12 - 4 * c))) % 256)) 0

/-- The 9 middle rounds; with `fuel` of them remaining the round-key index is
`10 - fuel`. -/
def aesRoundsAux (kw : Nat) : Nat → Nat → Nat
  | 0, st => st
  | f + 1, st =>
    withForced (mixColumnsP (shiftRowsP (subBytesP st)) ^^^ roundKey kw (10 - (f + 1)))
      (aesRoundsAux kw f)

/-- AES-128 block encryption on packed 128-bit state, given the expanded key. -/
def aesBlockP (kw blk : Nat) : Nat :=
  let st := blk ^^^ roundKey kw 0
  let st := aesRoundsAux kw 9 st
  shiftRowsP (subBytesP st) ^^^ roundKey kw 10

/-- AES-128 single-block encryption on bytes. -/
def aes128Block (key blk : List Nat) : List Nat :=
  beBytes 16 (aesBlockP (expandKey (natFromBytes key)) (natFromBytes blk))

/-- FIPS 197 appendix C.1: AES-128 of `00112233445566778899aabbccddeeff`
under key `000102030405060708090a0b0c0d0e0f`. -/
theorem aes128_fips197_vector :
    aes128Block (beBytes 16 0x000102030405060708090a0b0c0d0e0f)
      (beBytes 16 0x00112233445566778899aabbccddeeff) =
      beBytes 16 0x69c4e0d86a7b0430d8cdb78070b4c55a := by decide

/-- `2^128`. -/
def M128 : Nat := 340282366920938463463374607431768211456

/-- GF(2^128) product (SP 800-38D §6.3), bit `127 - i` of `X` processed at
step `i`; `R = 0xe1 <<< 120`. -/
def gf128Aux : Nat → Nat → Nat → Nat → Nat
  | 0, _, _, z => z
  | f + 1, x, v, z =>
    withForced (if (x >>> 127) % 2 = 1 then z ^^^ v else z) (fun z2 =>
      withForced (if v % 2 = 1 then (v >>> 1) ^^^ (0xe1 <<< 120) else v >>> 1) (fun v2 =>
        withForced ((x <<< 1) % M128) (fun x2 => gf128Aux f x2 v2 z2)))

def gf128Mul (x y : Nat) : Nat := gf128Aux 128 x y 0

/-- GHASH over a byte string whose length is a multiple of 16. -/
def ghashAux (h : Nat) : Nat → Nat → List Nat → Nat
  | 0, y, _ => y
  | _, y, [] => y
  | f + 1, y, data =>
    withForced (gf128Mul (y ^^^ natFromBytes (data.take 16)) h)
      (fun y2 => ghashAux h f y2 (data.drop 16))

/-- Zero-pad a byte string on the right to a multiple of 16 bytes. -/
def padTo16 (l : List Nat) : List Nat := l ++ List.replicate ((16 - l.length % 16) % 16) 0

/-- Increment the low 32 bits of a 128-bit block. -/
def inc32 (b : Nat) : Nat := (b >>> 32) * M32 + (b % M32 + 1) % M32

/-- CTR keystream xor (GCTR): each 16-byte chunk of `msg` is xored with
`AES(counter)`, the counter incrementing per block (a trailing short chunk
uses a prefix of the keystream block, via `zipWith`). -/
def gctrAux (kw : Nat) : Nat → Nat → List Nat → List Nat
  | 0, _, _ => []
  | _, _, [] => []
  | f + 1, cb, msg =>
    xorBytes (msg.take 16) (beBytes 16 (aesBlockP kw cb)) ++
      gctrAux kw f (inc32 cb) (msg.drop 16)

/-- AES-128-GCM encryption with a 96-bit IV and empty AAD, returning
`ciphertext ‖ 16-byte tag` — the layout `aes_gcm::Aes128Gcm::encrypt`
returns. -/
def aes128GcmEncrypt (key iv pt : List Nat) : List Nat :=
  let kw := expandKey (natFromBytes key)
  let h := aesBlockP kw 0
  let j0 := natFromBytes iv * M32 + 1
  let ct := gctrAux kw pt.length (inc32 j0) pt
  let lenBlock := beBytes 8 0 ++ beBytes 8 (8 * ct.length)
  let s := ghashAux h (ct.length + 16) 0 (padTo16 ct ++ lenBlock)
  ct ++ beBytes 16 (aesBlockP kw j0 ^^^ s)

/-- NIST SP 800-38D test case 3 (AES-128, 96-bit IV, empty AAD, 64-byte
plaintext). -/
theorem gcm_nist_tc3_vector :
    aes128GcmEncrypt (beBytes 16 0xfeffe9928665731c6d6a8f9467308308)
      (beBytes 12 0xcafebabefacedbaddecaf888)
      (beBytes 64
        0xd9313225f88406e5a55909c5aff5269a86a7a9531534f7da2e4c303d8a318a721c3c0c95956809532fcf0e2449a6b525b16aedf5aa0de657ba637b391aafd255) =
      beBytes 64
        0x42831ec2217774244b7221b784d0d49ce3aa212f2c02a4e035c17e2329aca12e21d514b25466931c7d8f6a5aac84aa051ba30b396a0aac973d58e091473f5985
      ++ beBytes 16 0x4d5c2af327cd64a62cf35abd2ba6fab4 := by decide

theorem gctrAux_length (kw : Nat) :
    ∀ (f cb : Nat) (msg : List Nat), msg.length ≤ f →
      (gctrAux kw f cb msg).length = msg.length := by
  intro f
  induction f with
  | zero =>
    intro cb msg h
    interval_cases hm : msg.length
    · rw [List.length_eq_zero] at hm
      subst hm; rfl
  | succ f ih =>
    intro cb msg h
    match msg with
    | [] => rfl
    | m :: rest =>
      simp only [gctrAux, List.length_append, xorBytes, List.length_zipWith,
        List.length_take, beBytes_length]
      rw [ih (inc32 cb) ((m :: rest).drop 16) (by
        rw [List.length_drop]
        simp only [List.length_cons] at h ⊢
        omega)]
      simp
      omega

/-- GCM output length: ciphertext bytes plus the 16-byte tag. -/
theorem aes128GcmEncrypt_length (key iv pt : List Nat) :
    (aes128GcmEncrypt key iv pt).length = pt.length + 16 := by
  unfold aes128GcmEncrypt
  simp only [List.length_append, beBytes_length, gctrAux_length _ _ _ _ (Nat.le_refl _)]

end AES

export AES (aes128GcmEncrypt)

/-! ### The NIST P-256 curve (SEC2 / FIPS 186), behind the `p256` crate

Affine points are pairs of coordinates; scalar multiplication runs in
Jacobian coordinates `(X : Y : Z)` (affine `(X/Z², Y/Z³)`, infinity `Z = 0`)
packed into one `Nat` as `X·2^512 + Y·2^256 + Z`. -/

namespace P256

/-- The field prime `p = 2^256 - 2^224 + 2^192 + 2^96 - 1`. -/
def p : Nat := 0xffffffff00000001000000000000000000000000ffffffffffffffffffffffff

/-- The group order `n`. -/
def nOrd : Nat := 0xffffffff00000000ffffffffffffffffbce6faada7179e84f3b9cac2fc632551

/-- The curve coefficient `b` (the equation is `y² = x³ - 3x + b`). -/
def bCoef : Nat := 0x5ac635d8aa3a93e7b3ebbd55769886bc651d06b0cc53b0f63bce3c3e27d2604b

def gx : Nat := 0x6b17d1f2e12c4247f8bce6e563a440f277037d812deb33a0f4a13945d898c296
def gy : Nat := 0x4fe342e2fe1a7f9b8ee7eb4a7c0f9e162bce33576b315ececbb6406837bf51f5

/-- The base point. -/
def G : Nat × Nat := (gx, gy)

/-- `a * e % m` by square-and-multiply over 256 exponent bits. -/
def powModAux : Nat → Nat → Nat → Nat → Nat → Nat
  | 0, _, _, _, acc => acc
  | f + 1, m, a, e, acc =>
    withForced (if e % 2 = 1 then acc * a % m else acc) (fun acc2 =>
      withForced (a * a % m) (fun a2 => powModAux f m a2 (e / 2) acc2))

/-- `a ^ e % m` for `e < 2^256`. -/
def powMod (m a e : Nat) : Nat := powModAux 256 m (a % m) e (1 % m)

/-- Inverse mod the prime `p` by Fermat. -/
def pinv (x : Nat) : Nat := powMod p x (p - 2)

/-- Subtraction mod `p`. -/
def subp (a b : Nat) : Nat := (a + p - b % p) % p

/-- The curve equation right-hand side `x³ - 3x + b mod p`. -/
def rhs (x : Nat) : Nat := (x * x % p * x + (p - 3) * x + bCoef) % p

/-- The affine on-curve test used when decoding a SEC1 point. -/
def onCurve (x y : Nat) : Prop := x < p ∧ y < p ∧ y * y % p = rhs x

instance (x y : Nat) : Decidable (onCurve x y) := by unfold onCurve; infer_instance

def packJ (x y z : Nat) : Nat := (x * 2 ^ 256 + y) * 2 ^ 256 + z
def jX (j : Nat) : Nat := j >>> 512
def jY (j : Nat) : Nat := (j >>> 256) % 2 ^ 256
def jZ (j : Nat) : Nat := j % 2 ^ 256

/-- Jacobian doubling (`a = -3` form: `M = 3(X - Z²)(X + Z²)`). -/
def jdouble (j : Nat) : Nat :=
  let x := jX j; let y := jY j; let z := jZ j
  if z = 0 ∨ y = 0 then 0
  else
    let zz := z * z % p
    let s := 4 * x % p * y % p * y % p
    let m := 3 * (subp x zz) % p * ((x + zz) % p) % p
    let x2 := subp (m * m % p) (2 * s)
    let y2 := subp (m * (subp s x2) % p) (8 * y % p * y % p * y % p * y % p)
    let z2 := 2 * y % p * z % p
    packJ x2 y2 z2

/-- Jacobian addition (general case, with the degenerate cases handled). -/
def jadd (j1 j2 : Nat) : Nat :=
  let z1 := jZ j1; let z2 := jZ j2
  if z1 = 0 then j2
  else if z2 = 0 then j1
  else
    let x1 := jX j1; let y1 := jY j1; let x2 := jX j2; let y2 := jY j2
    let u1 := x1 * z2 % p * z2 % p
    let u2 := x2 * z1 % p * z1 % p
    let s1 := y1 * z2 % p * z2 % p * z2 % p
    let s2 := y2 * z1 % p * z1 % p * z1 % p
    if u1 = u2 then
      if s1 = s2 then jdouble j1 else 0
    else
      let h := subp u2 u1
      let r := subp s2 s1
      let h2 := h * h % p
      let h3 := h2 * h % p
      let x3 := subp (subp (r * r % p) h3) (2 * u1 % p * h2)
      let y3 := subp (r * (subp (u1 * h2 % p) x3) % p) (s1 * h3 % p)
      let z3 := h * z1 % p * z2 % p
      packJ x3 y3 z3

/-- Double-and-add scalar multiplication, least-significant bit first. -/
def smulAux : Nat → Nat → Nat → Nat → Nat
  | 0, _, acc, _ => acc
  | f + 1, k, acc, base =>
    if k = 0 then acc
    else
      withForced (if k % 2 = 1 then jadd acc base else acc) (fun acc2 =>
        withForced (jdouble base) (fun base2 => smulAux f (k / 2) acc2 base2))

/-- Convert Jacobian to affine; `none` is the point at infinity. -/
def toAffine (j : Nat) : Option (Nat × Nat) :=
  if jZ j = 0 then none
  else
    let zi := pinv (jZ j)
    let zi2 := zi * zi % p
    some (jX j * zi2 % p, jY j * zi2 % p * zi % p)

/-- `k · pt` for an affine point, `none` when the result is infinity. -/
def smulAffine (k : Nat) (pt : Nat × Nat) : Option (Nat × Nat) :=
  toAffine (smulAux 256 k 0 (packJ pt.1 pt.2 1))

/-- The x-coordinate of the Diffie-Hellman product `d · ua`, as the 32
big-endian bytes `p256::ecdh::SharedSecret::raw_secret_bytes` exposes
(infinity, unreachable for `d ∈ [1, n-1]` and a valid public point, is
mapped to zero). -/
def ecdhSharedBytes (d : Nat) (ua : Nat × Nat) : List Nat :=
  match smulAffine d ua with
  | some (x, _) => beBytes 32 x
  | none => beBytes 32 0

/-- 65-byte uncompressed SEC1 encoding `04 ‖ x ‖ y`, the form
`EncodedPoint::from(&PublicKey)` produces. -/
def sec1Encode (pt : Nat × Nat) : List Nat := 0x04 :: (beBytes 32 pt.1 ++ beBytes 32 pt.2)

/-- `p256::PublicKey::from_sec1_bytes`: accepts the 65-byte uncompressed
encoding of an on-curve point, or the 33-byte compressed encoding (tag 2 or
3, decompressed by the square root `α^((p+1)/4)`); rejects the identity
encoding `[0]`, any wrong length, out-of-range coordinates and off-curve
points. -/
def fromSec1 (l : List Nat) : Option (Nat × Nat) :=
  if l.length = 65 ∧ l.headD 0 = 4 then
    let x := natFromBytes ((l.drop 1).take 32)
    let y := natFromBytes (l.drop 33)
    if onCurve x y then some (x, y) else none
  else if l.length = 33 ∧ (l.headD 0 = 2 ∨ l.headD 0 = 3) then
    let x := natFromBytes (l.drop 1)
    if x < p then
      let α := rhs x
      let y := powMod p α ((p + 1) / 4)
      if y * y % p = α then
        some (x, if y % 2 = (l.headD 0) % 2 then y else (p - y) % p)
      else none
    else none
  else none

theorem sec1Encode_length (pt : Nat × Nat) : (sec1Encode pt).length = 65 := by
  simp [sec1Encode, beBytes_length]

/-- The generator is on the curve. -/
theorem generator_on_curve : onCurve gx gy := by decide

/-- SEC1 decode(encode) on the generator. -/
theorem sec1_generator_roundtrip : fromSec1 (sec1Encode G) = some G := by decide

/-- `1 · G = G`. -/
theorem smul_one_g : smulAffine 1 G = some G := by decide

/-- RFC 6979 appendix A.2.5 public-key derivation: `x · G` for the sample
private key (checks the Jacobian formulas against an independent vector). -/
theorem smul_rfc6979_vector :
    smulAffine 0xc9afa9d845ba75166b5c215767b1d6934e50c3db36e89b127b8a622b120f6721 G =
      some (0x60fed4ba255a9d31c961eb74c6356d68c049b8923b61fa6ce669622e60f29fb6,
            0x7903fe1008b8bc99a41ae9e95628bc64f2f1b20c2d7e9f5177a3c294d4462299) := by
  decide

/-! #### Deterministic ECDSA (RFC 6979), as `p256::ecdsa::SigningKey::sign`
implements ES256: nonce from the HMAC-DRBG of RFC 6979 §3.2 with
`bits2octets(H(m)) = int2octets(H(m) mod n)` (hash length = order length),
signature `(r, s) = (x(k·G) mod n, k⁻¹(z + r·d) mod n)`. -/

/-- One nonce candidate: accepted iff `1 ≤ k < n` and both `r` and `s` are
nonzero. -/
def ecdsaTry (d z k : Nat) : Option (Nat × Nat) :=
  if 1 ≤ k ∧ k < nOrd then
    match smulAffine k G with
    | some xy =>
      let r := xy.1 % nOrd
      let s := powMod nOrd k (nOrd - 2) * ((z + r * d) % nOrd) % nOrd
      if r = 0 ∨ s = 0 then none else some (r, s)
    | none => none
  else none

/-- The RFC 6979 §3.2 h–j loop: `V = HMAC_K(V)` gives the candidate; on
rejection `K = HMAC_K(V ‖ 0x00)`, `V = HMAC_K(V)` and retry (fuelled; the
Rust stack panics if no candidate is ever accepted, modelled as `none`). -/
def ecdsaSignAux (d z : Nat) : Nat → List Nat → List Nat → Option (Nat × Nat)
  | 0, _, _ => none
  | f + 1, key, v =>
    let v2 := hmacSha256 key v
    match ecdsaTry d z (natFromBytes v2) with
    | some rs => some rs
    | none =>
      let key2 := hmacSha256 key (v2 ++ [0])
      ecdsaSignAux d z f key2 (hmacSha256 key2 v2)

/-- Deterministic ECDSA-SHA256 signature of `msg` under private scalar `d`. -/
def ecdsaSign (d : Nat) (msg : List Nat) : Option (Nat × Nat) :=
  let z := natFromBytes (sha256 msg) % nOrd
  let seed := [0] ++ beBytes 32 d ++ beBytes 32 z
  let k1 := hmacSha256 (List.replicate 32 0) (List.replicate 32 1 ++ seed)
  let v1 := hmacSha256 k1 (List.replicate 32 1)
  let k2 := hmacSha256 k1 (v1 ++ [1] ++ beBytes 32 d ++ beBytes 32 z)
  let v2 := hmacSha256 k2 v1
  ecdsaSignAux d z 32 k2 v2

/-- RFC 6979 appendix A.2.5: the P-256/SHA-256 signature of "sample". -/
theorem ecdsa_rfc6979_vector :
    ecdsaSign 0xc9afa9d845ba75166b5c215767b1d6934e50c3db36e89b127b8a622b120f6721
      (strBytes "sample") =
      some (0xefd48b2aacb6a8fd1140dd9cd45e81d69d2c877b56aaf991c34d0ea84eaf3716,
            0xf7cb1c942d657c41d436c7a1b6e29f65f3e900dbb9aff4064dc4ab2f843acda8) := by
  decide

/-- A signature's components are below `2^256` (each is a residue mod `n`). -/
theorem ecdsaTry_lt (d z k r s : Nat) (h : ecdsaTry d z k = some (r, s)) :
    r < nOrd ∧ s < nOrd := by
  unfold ecdsaTry at h
  by_cases hk : 1 ≤ k ∧ k < nOrd
  · rw [if_pos hk] at h
    rcases hm : smulAffine k G with _ | xy
    · rw [hm] at h; exact absurd h (by simp)
    · rw [hm] at h
      simp only at h
      by_cases hz : xy.1 % nOrd = 0 ∨
          powMod nOrd k (nOrd - 2) * ((z + xy.1 % nOrd * d) % nOrd) % nOrd = 0
      · rw [if_pos hz] at h; exact absurd h (by simp)
      · rw [if_neg hz] at h
        have hr : r = xy.1 % nOrd ∧
            s = powMod nOrd k (nOrd - 2) * ((z + xy.1 % nOrd * d) % nOrd) % nOrd := by
          have := h
          simp only [Option.some.injEq, Prod.mk.injEq] at this
          exact ⟨this.1.symm, this.2.symm⟩
        constructor
        · rw [hr.1]; exact Nat.mod_lt _ (by decide)
        · rw [hr.2]; exact Nat.mod_lt _ (by decide)
  · rw [if_neg hk] at h
    exact absurd h (by simp)

theorem ecdsaSignAux_lt (d z : Nat) :
    ∀ (f : Nat) (key v : List Nat) (r s : Nat),
      ecdsaSignAux d z f key v = some (r, s) → r < nOrd ∧ s < nOrd := by
  intro f
  induction f with
  | zero => intro key v r s h; exact absurd h (by simp [ecdsaSignAux])
  | succ f ih =>
    intro key v r s h
    simp only [ecdsaSignAux] at h
    split at h
    next rs heq =>
      obtain ⟨r1, s1⟩ := rs
      simp only [Option.some.injEq, Prod.mk.injEq] at h
      obtain ⟨h1, h2⟩ := h
      subst h1; subst h2
      exact ecdsaTry_lt d z _ _ _ heq
    next heq =>
      exact ih _ _ r s h

/-- Components of any `ecdsaSign` output are reduced mod `n`. -/
theorem ecdsaSign_lt (d : Nat) (msg : List Nat) (r s : Nat)
    (h : ecdsaSign d msg = some (r, s)) : r < nOrd ∧ s < nOrd :=
  ecdsaSignAux_lt _ _ _ _ _ r s h

end P256

/-! ### base64url without padding (RFC 4648 §5), the `base64` crate's
`URL_SAFE_NO_PAD` engine: no `=` padding on encode; decode rejects
characters outside the url-safe alphabet, a trailing group of one
character, and non-zero trailing bits. -/

/-- The url-safe alphabet: `A-Z a-z 0-9 - _`. -/
def b64Char (v : Nat) : Nat :=
  if v < 26 then 65 + v
  else if v < 52 then 97 + (v - 26)
  else if v < 62 then 48 + (v - 52)
  else if v = 62 then 45
  else 95

/-- Inverse alphabet lookup; `none` on a character outside the alphabet
(including `=`). -/
def b64Val (c : Nat) : Option Nat :=
  if 65 ≤ c ∧ c ≤ 90 then some (c - 65)
  else if 97 ≤ c ∧ c ≤ 122 then some (c - 97 + 26)
  else if 48 ≤ c ∧ c ≤ 57 then some (c - 48 + 52)
  else if c = 45 then some 62
  else if c = 95 then some 63
  else none

/-- base64url encoding without padding: 3-byte groups become 4 characters,
a trailing group of 1 or 2 bytes becomes 2 or 3. -/
def b64Encode : List Nat → List Nat
  | [] => []
  | [a] => [b64Char (a / 4), b64Char (a % 4 * 16)]
  | [a, b] => [b64Char (a / 4), b64Char (a % 4 * 16 + b / 16), b64Char (b % 16 * 4)]
  | a :: b :: c :: rest =>
    b64Char (a / 4) :: b64Char (a % 4 * 16 + b / 16) :: b64Char (b % 16 * 4 + c / 64) ::
      b64Char (c % 64) :: b64Encode rest

/-- base64url decoding without padding: fails on an invalid character, on a
trailing group of one character, and on non-zero trailing bits in a final
group of 2 or 3 characters. -/
def b64Decode : List Nat → Option (List Nat)
  | [] => some []
  | [c1, c2] =>
    match b64Val c1, b64Val c2 with
    | some v1, some v2 => if v2 % 16 = 0 then some [v1 * 4 + v2 / 16] else none
    | _, _ => none
  | [c1, c2, c3] =>
    match b64Val c1, b64Val c2, b64Val c3 with
    | some v1, some v2, some v3 =>
      if v3 % 4 = 0 then some [v1 * 4 + v2 / 16, v2 % 16 * 16 + v3 / 4] else none
    | _, _, _ => none
  | c1 :: c2 :: c3 :: c4 :: rest =>
    match b64Val c1, b64Val c2, b64Val c3, b64Val c4, b64Decode rest with
    | some v1, some v2, some v3, some v4, some tail =>
      some ((v1 * 4 + v2 / 16) :: (v2 % 16 * 16 + v3 / 4) :: (v3 % 4 * 64 + v4) :: tail)
    | _, _, _, _, _ => none
  | _ => none

theorem b64Val_b64Char : ∀ v < 64, b64Val (b64Char v) = some v := by decide

theorem b64Char_ne_dot (v : Nat) : b64Char v ≠ 46 := by
  unfold b64Char
  split_ifs <;> omega

/-- Decoding inverts encoding on byte lists. -/
theorem b64_roundtrip (l : List Nat) (h : allBytes l) : b64Decode (b64Encode l) = some l := by
  induction l using b64Encode.induct with
  | case1 => rfl
  | case2 a =>
    have ha : a < 256 := h a (by simp)
    simp only [b64Encode, b64Decode,
      b64Val_b64Char _ (by omega : a / 4 < 64),
      b64Val_b64Char _ (by omega : a % 4 * 16 < 64)]
    rw [if_pos (by omega)]
    simp only [Option.some.injEq, List.cons.injEq, and_true]
    omega
  | case3 a b =>
    have ha : a < 256 := h a (by simp)
    have hb : b < 256 := h b (by simp)
    simp only [b64Encode, b64Decode,
      b64Val_b64Char _ (by omega : a / 4 < 64),
      b64Val_b64Char _ (by omega : a % 4 * 16 + b / 16 < 64),
      b64Val_b64Char _ (by omega : b % 16 * 4 < 64)]
    rw [if_pos (by omega)]
    simp only [Option.some.injEq, List.cons.injEq, and_true]
    omega
  | case4 a b c rest ih =>
    have ha : a < 256 := h a (by simp)
    have hb : b < 256 := h b (by simp)
    have hc : c < 256 := h c (by simp)
    have hrest : allBytes rest := fun x hx => h x (by simp [hx])
    simp only [b64Encode, b64Decode,
      b64Val_b64Char _ (by omega : a / 4 < 64),
      b64Val_b64Char _ (by omega : a % 4 * 16 + b / 16 < 64),
      b64Val_b64Char _ (by omega : b % 16 * 4 + c / 64 < 64),
      b64Val_b64Char _ (by omega : c % 64 < 64),
      ih hrest]
    simp only [Option.some.injEq, List.cons.injEq, and_true]
    refine ⟨by omega, by omega, by omega⟩

/-! ### JSON serialization of the flat objects `notify.rs` builds with
`serde_json::json!`: string and integer scalars only. `serde_json`'s default
`Map` is ordered by key (BTreeMap), and the two objects' literal key order
(`alg`; `aud`, `exp`, `sub`) is already sorted, so serialization order equals
literal order. String escaping follows `serde_json`: `"` and `\\` get a
backslash, the five short control escapes are used, other control characters
become `\u00XX` with lowercase hex; all other bytes pass through. -/

/-- Lowercase hex digit. -/
def hexDigit (d : Nat) : Nat := if d < 10 then 48 + d else 87 + d

/-- `serde_json`-style escaping of one string byte. -/
def escapeByte (b : Nat) : List Nat :=
  if b = 34 then [92, 34]
  else if b = 92 then [92, 92]
  else if b = 8 then [92, 98]
  else if b = 9 then [92, 116]
  else if b = 10 then [92, 110]
  else if b = 12 then [92, 102]
  else if b = 13 then [92, 114]
  else if b < 32 then [92, 117, 48, 48, hexDigit (b / 16), hexDigit (b % 16)]
  else [b]

/-- A JSON string literal: quote, escaped bytes, quote. -/
def jstr (s : List Nat) : List Nat := 34 :: (s.map escapeByte).flatten ++ [34]

/-- Decimal digits of a natural number (fuelled; 30 digits suffice far beyond
`u64`/`i64` ranges). -/
def natDigitsAux : Nat → Nat → List Nat
  | 0, _ => []
  | f + 1, x => if x = 0 then [] else natDigitsAux f (x / 10) ++ [48 + x % 10]

def natDec (x : Nat) : List Nat := if x = 0 then [48] else natDigitsAux 30 x

/-- Decimal rendering of an integer, as `serde_json` writes `i64` values. -/
def intDec (i : Int) : List Nat := if i < 0 then 45 :: natDec i.natAbs else natDec i.natAbs

/-- A scalar JSON value. -/
inductive JVal where
  | str (s : List Nat)
  | int (i : Int)

def jValSer : JVal → List Nat
  | .str s => jstr s
  | .int i => intDec i

def joinComma : List (List Nat) → List Nat
  | [] => []
  | [x] => x
  | x :: rest => x ++ 44 :: joinComma rest

/-- Serialize a flat JSON object `{"k1":v1,...}` in the given field order. -/
def jObjSer (fields : List (List Nat × JVal)) : List Nat :=
  123 :: joinComma (fields.map (fun f => jstr f.1 ++ 58 :: jValSer f.2)) ++ [125]

/-- The serialized VAPID JWT header object. -/
theorem header_json_bytes :
    jObjSer [(strBytes "alg", .str (strBytes "ES256"))] =
      [123, 34, 97, 108, 103, 34, 58, 34, 69, 83, 50, 53, 54, 34, 125] := by decide

theorem allBytes_append {a b : List Nat} (ha : allBytes a) (hb : allBytes b) :
    allBytes (a ++ b) := by
  intro x hx
  rcases List.mem_append.mp hx with h | h
  · exact ha x h
  · exact hb x h

theorem escapeByte_bytes (b : Nat) (h : b < 256) : allBytes (escapeByte b) := by
  unfold escapeByte hexDigit
  intro x hx
  split_ifs at hx <;> simp_all <;> omega

theorem jstr_bytes (s : List Nat) (h : allBytes s) : allBytes (jstr s) := by
  intro x hx
  unfold jstr at hx
  rcases List.mem_cons.mp hx with hx | hx
  · omega
  rcases List.mem_append.mp hx with hx | hx
  · rcases List.mem_flatten.mp hx with ⟨l, hl, hxl⟩
    rcases List.mem_map.mp hl with ⟨b, hb, hbl⟩
    rw [← hbl] at hxl
    exact escapeByte_bytes b (h b hb) x hxl
  · simp at hx
    omega

theorem natDigitsAux_bytes (f : Nat) : ∀ x, allBytes (natDigitsAux f x) := by
  induction f with
  | zero => intro x b hb; simp [natDigitsAux] at hb
  | succ f ih =>
    intro x b hb
    unfold natDigitsAux at hb
    split_ifs at hb
    · simp at hb
    · rcases List.mem_append.mp hb with h | h
      · exact ih _ b h
      · simp at h; omega

theorem natDec_bytes (x : Nat) : allBytes (natDec x) := by
  unfold natDec
  split_ifs
  · intro b hb; simp at hb; omega
  · exact natDigitsAux_bytes 30 x

theorem intDec_bytes (i : Int) : allBytes (intDec i) := by
  unfold intDec
  split_ifs
  · intro b hb
    rcases List.mem_cons.mp hb with h | h
    · omega
    · exact natDec_bytes _ b h
  · exact natDec_bytes _

theorem jValSer_bytes (v : JVal) (h : ∀ s, v = .str s → allBytes s) :
    allBytes (jValSer v) := by
  cases v with
  | str s => exact jstr_bytes s (h s rfl)
  | int i => exact intDec_bytes i

/-- Encoded output never contains a dot (0x2e). -/
theorem b64Encode_no_dot (l : List Nat) : 46 ∉ b64Encode l := by
  induction l using b64Encode.induct with
  | case1 => simp [b64Encode]
  | case2 a =>
    simp only [b64Encode, List.mem_cons, List.not_mem_nil, or_false]
    exact fun hc => by
      rcases hc with hc | hc <;> exact b64Char_ne_dot _ hc.symm
  | case3 a b =>
    simp only [b64Encode, List.mem_cons, List.not_mem_nil, or_false]
    exact fun hc => by
      rcases hc with hc | hc | hc <;> exact b64Char_ne_dot _ hc.symm
  | case4 a b c rest ih =>
    simp only [b64Encode, List.mem_cons]
    intro hc
    rcases hc with hc | hc | hc | hc | hc
    · exact b64Char_ne_dot _ hc.symm
    · exact b64Char_ne_dot _ hc.symm
    · exact b64Char_ne_dot _ hc.symm
    · exact b64Char_ne_dot _ hc.symm
    · exact ih hc

/-! ### URL parsing (the `url` crate / WHATWG URL standard), as
`reqwest::Url::parse` used by `extract_origin`

Modelled for the URL shapes relevant to push endpoints: an authority-form
URL `scheme://[userinfo@]host[:port][/...]` with a nonempty host, and an
opaque-path URL `scheme:...` (no `//`), which has no host (e.g. `mailto:`).
Scheme and host are ASCII-lowercased; an input without a valid `scheme:`
prefix is a parse error (`RelativeUrlWithoutBase`); an empty or
colon-containing host, a non-numeric port, and a port ≥ 2^16 are parse
errors. Following the WHATWG standard (and `url::Url::port`), a port equal
to the scheme's known default (http/ws 80, https/wss 443, ftp 21) is
dropped: `port()` returns `None` for it. -/

namespace UrlModel

def toLower (b : Nat) : Nat := if 65 ≤ b ∧ b ≤ 90 then b + 32 else b

def isAlphaB (b : Nat) : Bool := (65 ≤ b && b ≤ 90) || (97 ≤ b && b ≤ 122)

def isDigitB (b : Nat) : Bool := 48 ≤ b && b ≤ 57

/-- Scheme characters after the first: letter, digit, `+`, `-` or `.`. -/
def schemeCharB (b : Nat) : Bool := isAlphaB b || isDigitB b || b = 43 || b = 45 || b = 46

def schemeOkB : List Nat → Bool
  | [] => false
  | c :: rest => isAlphaB c && rest.all schemeCharB

def natFromDigits (l : List Nat) : Nat := l.foldl (fun acc b => acc * 10 + (b - 48)) 0

def defaultPort (scheme : List Nat) : Option Nat :=
  if scheme = strBytes "http" then some 80
  else if scheme = strBytes "https" then some 443
  else if scheme = strBytes "ws" then some 80
  else if scheme = strBytes "wss" then some 443
  else if scheme = strBytes "ftp" then some 21
  else none

structure ParsedUrl where
  scheme : List Nat
  host : Option (List Nat)
  port : Option Nat
  deriving DecidableEq

/-- Parse an absolute URL into the components `extract_origin` reads
(`scheme()`, `host_str()`, `port()`). -/
def urlParse (s : List Nat) : Option ParsedUrl :=
  let scheme := s.takeWhile (fun b => b ≠ 58)
  let rest := s.dropWhile (fun b => b ≠ 58)
  match rest with
  | [] => none
  | _ :: afterColon =>
    if schemeOkB scheme then
      let scheme := scheme.map toLower
      match afterColon with
      | 47 :: 47 :: rest2 =>
        let authority := rest2.takeWhile (fun b => b ≠ 47 && b ≠ 63 && b ≠ 35)
        let hostport := (authority.reverse.takeWhile (fun b => b ≠ 64)).reverse
        if hostport.contains 58 then
          let portBytes := (hostport.reverse.takeWhile (fun b => b ≠ 58)).reverse
          let hostBytes := hostport.take (hostport.length - portBytes.length - 1)
          if hostBytes.contains 58 then none
          else if ¬ portBytes.all isDigitB then none
          else if hostBytes.isEmpty then none
          else if portBytes.isEmpty then some ⟨scheme, some (hostBytes.map toLower), none⟩
          else
            let pv := natFromDigits portBytes
            if pv ≥ 65536 then none
            else if defaultPort scheme = some pv then
              some ⟨scheme, some (hostBytes.map toLower), none⟩
            else some ⟨scheme, some (hostBytes.map toLower), some pv⟩
        else
          if hostport.isEmpty then none
          else some ⟨scheme, some (hostport.map toLower), none⟩
      | _ => some ⟨scheme, none, none⟩
    else none

end UrlModel

/-- `extract_origin` (`notify.rs` lines 186–199): parse the endpoint, then
format `"{scheme}://{host}"`, appending `":{port}"` exactly when `port()`
yields a port; errors (`Err`) on a parse failure or a hostless URL are
`none`. -/
def extractOrigin (endpoint : List Nat) : Option (List Nat) :=
  match UrlModel.urlParse endpoint with
  | none => none
  | some u =>
    match u.host with
    | none => none
    | some h =>
      match u.port with
      | some pv => some (u.scheme ++ strBytes "://" ++ h ++ 58 :: natDec pv)
      | none => some (u.scheme ++ strBytes "://" ++ h)

/-! ### The Web Push delivery core (`src/notify.rs`)

Randomness, the clock, and the network are the effects of `send_one`; they
are modelled as explicit inputs: an `EncDraw` stands for one visit to
`OsRng` (the ephemeral scalar drawn by `EphemeralSecret::random` and the 16
salt bytes drawn by `fill_bytes`), `now` for `Utc::now().timestamp()`, and
an `HttpOutcome` for the push service's behaviour on the single POST. -/

/-- A subscription row (`db::Subscription`): endpoint URL and the
base64url-encoded `p256dh` and `auth` values, as byte strings. -/
structure Subscription where
  endpoint : List Nat
  p256dh : List Nat
  auth : List Nat

/-- `notify::VapidConfig`. -/
structure VapidConfig where
  subject : List Nat
  publicKeyB64 : List Nat
  privateKeyB64 : List Nat

/-- One visit to the OS randomness source inside `encrypt_payload`. -/
structure EncDraw where
  ephSecret : Nat
  salt : List Nat
  deriving DecidableEq

/-- The push service's behaviour on one HTTP POST: a transport-level
failure, or a response with a status code and a body (`none` when reading
the body fails, which `unwrap_or_default` turns into the empty string). -/
inductive HttpOutcome where
  | transportError
  | response (status : Nat) (body : Option (List Nat))

/-- The error taxonomy of `send_one` (in the source, `anyhow` errors built
at the corresponding sites). -/
inductive PushError where
  | invalidBase64
  | invalidKey
  | cryptoFailure
  | originFailure
  | vapidFailure
  | endpointRejected (status : Nat) (body : List Nat)
  | transport
  deriving DecidableEq

/-- `info = "WebPush: info" ‖ 0x00 ‖ ua_pubkey(65) ‖ as_pubkey(65)`
(`notify.rs` lines 106–109). -/
def webpushInfo (uaPub serverPub : Nat × Nat) : List Nat :=
  strBytes "WebPush: info" ++ [0] ++ P256.sec1Encode uaPub ++ P256.sec1Encode serverPub

/-- The CEK expansion info `"Content-Encoding: aes128gcm" ‖ 0x00`. -/
def cencAes128gcmInfo : List Nat := strBytes "Content-Encoding: aes128gcm" ++ [0]

/-- The nonce expansion info `"Content-Encoding: nonce" ‖ 0x00`. -/
def cencNonceInfo : List Nat := strBytes "Content-Encoding: nonce" ++ [0]

/-- `encrypt_payload` (`notify.rs` lines 91–153), RFC 8291 aes128gcm content
encoding: ephemeral key pair and ECDH; first HKDF (salt = auth secret,
IKM = shared secret, info = `webpushInfo`) to a 32-byte `ikm`; second HKDF
(salt = the random 16-byte salt, key = `ikm`) to a 16-byte CEK and a
12-byte nonce; AES-128-GCM over `plaintext ‖ 0x02`; payload `salt(16) ‖
rs=4096 (4, big-endian) ‖ idlen=keyid length as u8 ‖ keyid(65) ‖
ciphertext`. `none` models the `Err` paths (HKDF expand failure, key-size
failure) and the type-level impossibility of an infinite ECDH point. -/
def encryptPayload (draw : EncDraw) (plaintext : List Nat) (uaPub : Nat × Nat)
    (authSecret : List Nat) : Option (List Nat) :=
  match P256.smulAffine draw.ephSecret P256.G with
  | none => none
  | some serverPub =>
    let serverPubBytes := P256.sec1Encode serverPub
    let sharedBytes := P256.ecdhSharedBytes draw.ephSecret uaPub
    let info := webpushInfo uaPub serverPub
    match hkdfSha256 authSecret sharedBytes info 32 with
    | none => none
    | some ikm =>
      match hkdfSha256 draw.salt ikm cencAes128gcmInfo 16 with
      | none => none
      | some cek =>
        match hkdfSha256 draw.salt ikm cencNonceInfo 12 with
        | none => none
        | some nonceBytes =>
          if cek.length = 16 then
            let msg := plaintext ++ [0x02]
            let ct := aes128GcmEncrypt cek nonceBytes msg
            some (draw.salt ++ beBytes 4 4096 ++
              [serverPubBytes.length % 256] ++ serverPubBytes ++ ct)
          else none

/-- The serialized JWT header bytes (the object with the single key `alg`
and value `ES256`). -/
def vapidHeaderJson : List Nat := jObjSer [(strBytes "alg", .str (strBytes "ES256"))]

/-- The serialized JWT payload object with exactly the keys `aud`, `exp`,
`sub` (in `serde_json`'s sorted-key order, which is also the literal order).
-/
def vapidPayloadJson (audience : List Nat) (exp : Int) (subject : List Nat) : List Nat :=
  jObjSer [(strBytes "aud", .str audience), (strBytes "exp", .int exp),
    (strBytes "sub", .str subject)]

instance exceptDecEq {ε α : Type} [DecidableEq ε] [DecidableEq α] :
    DecidableEq (Except ε α) := fun a b =>
  match a, b with
  | .ok x, .ok y =>
    match decEq x y with
    | isTrue h => isTrue (by rw [h])
    | isFalse h => isFalse (fun hc => h (by injection hc))
  | .error x, .error y =>
    match decEq x y with
    | isTrue h => isTrue (by rw [h])
    | isFalse h => isFalse (fun hc => h (by injection hc))
  | .ok _, .error _ => isFalse (fun hc => Except.noConfusion hc)
  | .error _, .ok _ => isFalse (fun hc => Except.noConfusion hc)

/-- The outcome of `build_vapid_jwt`, separating the two ways the Rust
function can fail: `err` is a returned `Err` (the `?` on the base64 decode
of the private key, or the `map_err` on an out-of-range scalar), while
`panic` is a process-unwinding panic — `GenericArray::from_slice`'s length
assertion when the decoded private key is not exactly 32 bytes (reachable,
since the key comes from an unvalidated config value), and the `unwrap`
inside `Signer::sign` should signing itself fail. A panic is not a value
the caller can handle; it unwinds `send_one` and the whole `send_all`
batch. -/
inductive JwtResult where
  | panic
  | err
  | ok (jwt : List Nat)
  deriving DecidableEq

def JwtResult.isOk : JwtResult → Bool
  | .ok _ => true
  | _ => false

theorem JwtResult.isOk_iff (r : JwtResult) : r.isOk = true ↔ ∃ jwt, r = .ok jwt := by
  cases r <;> simp [JwtResult.isOk]

/-- `build_vapid_jwt` (`notify.rs` lines 156–183): base64url (no padding) of
the serialized header and payload objects, joined by a dot; ES256 signature
over the UTF-8 bytes of that string, serialized as the fixed 64-byte
`r ‖ s` (`Signature::to_bytes`, not DER), base64url-encoded and appended
after a second dot. A private key that is not valid base64 or not a valid
scalar is a returned `Err`; a decoded private key of length ≠ 32 panics at
`SigningKey::from_bytes(priv_bytes.as_slice().into())`, as does a signing
failure inside `Signer::sign`. -/
def buildVapidJwt (now : Int) (audience subject privateKeyB64 : List Nat) :
    JwtResult :=
  let headerB64 := b64Encode vapidHeaderJson
  let exp := now + 3600
  let payloadB64 := b64Encode (vapidPayloadJson audience exp subject)
  let signingInput := headerB64 ++ [46] ++ payloadB64
  match b64Decode privateKeyB64 with
  | none => .err
  | some privBytes =>
    if privBytes.length = 32 then
      let d := natFromBytes privBytes
      if 1 ≤ d ∧ d < P256.nOrd then
        match P256.ecdsaSign d signingInput with
        | some rs =>
          .ok (signingInput ++ [46] ++ b64Encode (beBytes 32 rs.1 ++ beBytes 32 rs.2))
        | none => .panic
      else .err
    else .panic

/-- `send_one` (`notify.rs` lines 50–88): decode `p256dh` and `auth`,
parse the subscriber key, encrypt, extract the origin, build the VAPID JWT,
then POST; a non-2xx status (`StatusCode::is_success` is 200–299) yields
the status-and-body error, a transport failure propagates. The result is
`some` of the returned `Result`; `none` models a panic unwinding the call
(which only `build_vapid_jwt` can raise on this path). -/
def sendOne (draw : EncDraw) (now : Int) (http : HttpOutcome) (sub : Subscription)
    (message : List Nat) (vapid : VapidConfig) : Option (Except PushError Unit) :=
  match b64Decode sub.p256dh with
  | none => some (.error .invalidBase64)
  | some p256dhBytes =>
    match b64Decode sub.auth with
    | none => some (.error .invalidBase64)
    | some authBytes =>
      match P256.fromSec1 p256dhBytes with
      | none => some (.error .invalidKey)
      | some uaPub =>
        match encryptPayload draw message uaPub authBytes with
        | none => some (.error .cryptoFailure)
        | some _payload =>
          match extractOrigin sub.endpoint with
          | none => some (.error .originFailure)
          | some origin =>
            match buildVapidJwt now origin vapid.subject vapid.privateKeyB64 with
            | .panic => none
            | .err => some (.error .vapidFailure)
            | .ok _jwt =>
              match http with
              | .transportError => some (.error .transport)
              | .response status body =>
                if 200 ≤ status ∧ status ≤ 299 then some (.ok ())
                else some (.error (.endpointRejected status (body.getD [])))

/-- The ambient effects of one `send_one` call. -/
structure SendEnv where
  draw : EncDraw
  now : Int
  http : HttpOutcome

/-- The loop body of `send_all` (`notify.rs` lines 32–44): iterate the
subscription list in order, awaiting `send_one` for each and pushing its
result; `env i` supplies the effects of the `i`-th call (counting from
`i0`). A panic in any `send_one` call (`none`) unwinds the loop: the batch
yields no result list at all. -/
def sendAllAux (env : Nat → SendEnv) (message : List Nat) (vapid : VapidConfig) :
    Nat → List Subscription → Option (List (Except PushError Unit))
  | _, [] => some []
  | i0, s :: rest =>
    match sendOne (env i0).draw (env i0).now (env i0).http s message vapid with
    | none => none
    | some r =>
      match sendAllAux env message vapid (i0 + 1) rest with
      | none => none
      | some rs => some (r :: rs)

/-- `send_all`: one result per subscription, collected in order — unless
some call panics, which unwinds the whole batch (`none`). -/
def sendAll (env : Nat → SendEnv) (subs : List Subscription) (message : List Nat)
    (vapid : VapidConfig) : Option (List (Except PushError Unit)) :=
  sendAllAux env message vapid 0 subs

/-! ### List splitting helpers for the wire-format claims -/

theorem take_append_exact {l1 l2 : List Nat} {n : Nat} (h : l1.length = n) :
    (l1 ++ l2).take n = l1 := by
  subst h
  exact List.take_left l1 l2

theorem drop_append_exact {l1 l2 : List Nat} {n : Nat} (h : l1.length = n) :
    (l1 ++ l2).drop n = l2 := by
  subst h
  exact List.drop_left l1 l2

/-- The success shape of `encrypt_payload`: given the ephemeral public key,
the two-round HKDF schedule succeeds and the payload is exactly
`salt ‖ 4096₄ ‖ 65 ‖ keyid ‖ AES-128-GCM(cek, nonce, plaintext ‖ 0x02)`. -/
theorem encryptPayload_eq (draw : EncDraw) (pt : List Nat) (uaPub : Nat × Nat)
    (auth : List Nat) (serverPub : Nat × Nat)
    (hsp : P256.smulAffine draw.ephSecret P256.G = some serverPub) :
    ∃ ikm cek nonce,
      hkdfSha256 auth (P256.ecdhSharedBytes draw.ephSecret uaPub)
        (webpushInfo uaPub serverPub) 32 = some ikm ∧ ikm.length = 32 ∧
      hkdfSha256 draw.salt ikm cencAes128gcmInfo 16 = some cek ∧ cek.length = 16 ∧
      hkdfSha256 draw.salt ikm cencNonceInfo 12 = some nonce ∧ nonce.length = 12 ∧
      encryptPayload draw pt uaPub auth =
        some (draw.salt ++ (beBytes 4 4096 ++ ([65] ++ (P256.sec1Encode serverPub ++
          aes128GcmEncrypt cek nonce (pt ++ [2]))))) := by
  obtain ⟨ikm, hikm, hikml⟩ :=
    HKDF.expand_length (HKDF.extract auth (P256.ecdhSharedBytes draw.ephSecret uaPub))
      (webpushInfo uaPub serverPub) 32 (by norm_num)
  obtain ⟨cek, hcek, hcekl⟩ :=
    HKDF.expand_length (HKDF.extract draw.salt ikm) cencAes128gcmInfo 16 (by norm_num)
  obtain ⟨nn, hnn, hnnl⟩ :=
    HKDF.expand_length (HKDF.extract draw.salt ikm) cencNonceInfo 12 (by norm_num)
  have hikm2 : hkdfSha256 auth (P256.ecdhSharedBytes draw.ephSecret uaPub)
      (webpushInfo uaPub serverPub) 32 = some ikm := hikm
  have hcek2 : hkdfSha256 draw.salt ikm cencAes128gcmInfo 16 = some cek := hcek
  have hnn2 : hkdfSha256 draw.salt ikm cencNonceInfo 12 = some nn := hnn
  refine ⟨ikm, cek, nn, hikm2, hikml, hcek2, hcekl, hnn2, hnnl, ?_⟩
  simp only [encryptPayload, hsp, hikm2, hcek2, hnn2]
  rw [if_pos hcekl, P256.sec1Encode_length]
  simp [List.append_assoc]

/-- Splitting the five-part payload concatenation at the wire offsets. -/
theorem payload_split (salt rsB idl spb ct : List Nat)
    (h1 : salt.length = 16) (h2 : rsB.length = 4) (h3 : idl.length = 1)
    (h4 : spb.length = 65) :
    (salt ++ (rsB ++ (idl ++ (spb ++ ct)))).take 16 = salt ∧
    ((salt ++ (rsB ++ (idl ++ (spb ++ ct)))).drop 16).take 4 = rsB ∧
    ((salt ++ (rsB ++ (idl ++ (spb ++ ct)))).drop 20).take 1 = idl ∧
    ((salt ++ (rsB ++ (idl ++ (spb ++ ct)))).drop 21).take 65 = spb ∧
    (salt ++ (rsB ++ (idl ++ (spb ++ ct)))).drop 86 = ct := by
  have d16 : (salt ++ (rsB ++ (idl ++ (spb ++ ct)))).drop 16 = rsB ++ (idl ++ (spb ++ ct)) :=
    drop_append_exact h1
  have d20 : (salt ++ (rsB ++ (idl ++ (spb ++ ct)))).drop 20 = idl ++ (spb ++ ct) := by
    have h : (salt ++ (rsB ++ (idl ++ (spb ++ ct)))).drop 20 =
        ((salt ++ (rsB ++ (idl ++ (spb ++ ct)))).drop 16).drop 4 := by
      rw [List.drop_drop]
    rw [h, d16, drop_append_exact h2]
  have d21 : (salt ++ (rsB ++ (idl ++ (spb ++ ct)))).drop 21 = spb ++ ct := by
    have h : (salt ++ (rsB ++ (idl ++ (spb ++ ct)))).drop 21 =
        ((salt ++ (rsB ++ (idl ++ (spb ++ ct)))).drop 20).drop 1 := by
      rw [List.drop_drop]
    rw [h, d20, drop_append_exact h3]
  have d86 : (salt ++ (rsB ++ (idl ++ (spb ++ ct)))).drop 86 = ct := by
    have h : (salt ++ (rsB ++ (idl ++ (spb ++ ct)))).drop 86 =
        ((salt ++ (rsB ++ (idl ++ (spb ++ ct)))).drop 21).drop 65 := by
      rw [List.drop_drop]
    rw [h, d21, drop_append_exact h4]
  refine ⟨take_append_exact h1, ?_, ?_, ?_, d86⟩
  · rw [d16]; exact take_append_exact h2
  · rw [d20]; exact take_append_exact h3
  · rw [d21]; exact take_append_exact h4

/-- Claim C1: for every plaintext, subscriber public key and auth secret,
the payload returned by `encrypt_payload` has the exact wire layout:
bytes 0..16 equal the freshly generated 16-byte salt, bytes 16..20 are the
big-endian encoding of the fixed record size 4096, byte 20 equals 65,
bytes 21..86 equal the 65-byte uncompressed SEC1 encoding of the ephemeral
public key, and the remaining bytes are the AEAD ciphertext (including the
16-byte tag). The hypotheses say what the randomness source delivered: a
16-byte salt (`fill_bytes` into a `[u8; 16]`) and an ephemeral scalar whose
public point is `serverPub` (`EphemeralSecret::random`). -/
theorem claim_C1_payload_layout (draw : EncDraw) (pt : List Nat) (uaPub : Nat × Nat)
    (auth : List Nat) (serverPub : Nat × Nat)
    (hsalt : draw.salt.length = 16)
    (hsp : P256.smulAffine draw.ephSecret P256.G = some serverPub) :
    ∃ payload ikm cek nonce,
      encryptPayload draw pt uaPub auth = some payload ∧
      payload.take 16 = draw.salt ∧
      (payload.drop 16).take 4 = beBytes 4 4096 ∧
      natFromBytes ((payload.drop 16).take 4) = 4096 ∧
      (payload.drop 20).take 1 = [65] ∧
      (payload.drop 21).take 65 = P256.sec1Encode serverPub ∧
      (P256.sec1Encode serverPub).length = 65 ∧
      hkdfSha256 auth (P256.ecdhSharedBytes draw.ephSecret uaPub)
        (webpushInfo uaPub serverPub) 32 = some ikm ∧
      hkdfSha256 draw.salt ikm cencAes128gcmInfo 16 = some cek ∧
      hkdfSha256 draw.salt ikm cencNonceInfo 12 = some nonce ∧
      payload.drop 86 = aes128GcmEncrypt cek nonce (pt ++ [2]) := by
  obtain ⟨ikm, cek, nn, hikm, hikml, hcek, hcekl, hnn, hnnl, heq⟩ :=
    encryptPayload_eq draw pt uaPub auth serverPub hsp
  obtain ⟨s1, s2, s3, s4, s5⟩ :=
    payload_split draw.salt (beBytes 4 4096) [65] (P256.sec1Encode serverPub)
      (aes128GcmEncrypt cek nn (pt ++ [2])) hsalt (beBytes_length 4 4096) rfl
      (P256.sec1Encode_length serverPub)
  refine ⟨_, ikm, cek, nn, heq, s1, s2, ?_, s3, s4,
    P256.sec1Encode_length serverPub, hikm, hcek, hnn, s5⟩
  rw [s2]
  decide

/-- Witness for C1 at a concrete input: ephemeral scalar 1 (public point
`G`), zero salt, plaintext "hi", subscriber key `G`, auth secret `0x01`^16.
-/
theorem claim_C1_payload_layout_witness :
    ∃ payload ikm cek nonce,
      encryptPayload ⟨1, List.replicate 16 0⟩ [104, 105] P256.G (List.replicate 16 1) =
        some payload ∧
      payload.take 16 = (⟨1, List.replicate 16 0⟩ : EncDraw).salt ∧
      (payload.drop 16).take 4 = beBytes 4 4096 ∧
      natFromBytes ((payload.drop 16).take 4) = 4096 ∧
      (payload.drop 20).take 1 = [65] ∧
      (payload.drop 21).take 65 = P256.sec1Encode P256.G ∧
      (P256.sec1Encode P256.G).length = 65 ∧
      hkdfSha256 (List.replicate 16 1)
        (P256.ecdhSharedBytes (⟨1, List.replicate 16 0⟩ : EncDraw).ephSecret P256.G)
        (webpushInfo P256.G P256.G) 32 = some ikm ∧
      hkdfSha256 (⟨1, List.replicate 16 0⟩ : EncDraw).salt ikm cencAes128gcmInfo 16 =
        some cek ∧
      hkdfSha256 (⟨1, List.replicate 16 0⟩ : EncDraw).salt ikm cencNonceInfo 12 =
        some nonce ∧
      payload.drop 86 = aes128GcmEncrypt cek nonce ([104, 105] ++ [2]) :=
  claim_C1_payload_layout ⟨1, List.replicate 16 0⟩ [104, 105] P256.G
    (List.replicate 16 1) P256.G (by decide) P256.smul_one_g

/-- Claim C10: a successful `encrypt_payload` on an `n`-byte plaintext
returns exactly `n + 103` bytes: 16 (salt) + 4 (record size) + 1 (key-id
length) + 65 (ephemeral public key) + `n` + 1 (delimiter) + 16 (GCM tag);
the plaintext length and the auth-secret length are unconstrained. -/
theorem claim_C10_payload_length (draw : EncDraw) (pt : List Nat) (uaPub : Nat × Nat)
    (auth : List Nat) (serverPub : Nat × Nat)
    (hsalt : draw.salt.length = 16)
    (hsp : P256.smulAffine draw.ephSecret P256.G = some serverPub) :
    ∃ payload, encryptPayload draw pt uaPub auth = some payload ∧
      payload.length = pt.length + 103 := by
  obtain ⟨ikm, cek, nn, hikm, hikml, hcek, hcekl, hnn, hnnl, heq⟩ :=
    encryptPayload_eq draw pt uaPub auth serverPub hsp
  refine ⟨_, heq, ?_⟩
  simp only [List.length_append, beBytes_length, hsalt, P256.sec1Encode_length,
    AES.aes128GcmEncrypt_length, List.length_cons, List.length_nil, List.length_singleton]
  omega

/-- Witness for C10: a 5-byte plaintext and a 3-byte auth secret (the
unchecked auth-secret length) yield a 108-byte payload. -/
theorem claim_C10_payload_length_witness :
    ∃ payload,
      encryptPayload ⟨1, List.replicate 16 7⟩ [1, 2, 3, 4, 5] P256.G [9, 9, 9] =
        some payload ∧ payload.length = [1, 2, 3, 4, 5].length + 103 :=
  claim_C10_payload_length ⟨1, List.replicate 16 7⟩ [1, 2, 3, 4, 5] P256.G [9, 9, 9]
    P256.G (by decide) P256.smul_one_g

/-! ### Claim C2: the RFC 8291 key schedule, stated from the spec's words
and proved to coincide with what the code computes. -/

namespace RFC8291Spec

/-- Spec wording: `info = "WebPush: info" ‖ 0x00 ‖
subscriber_public_key_bytes(65) ‖ ephemeral_public_key_bytes(65)`. -/
def info (subscriberPubBytes ephemeralPubBytes : List Nat) : List Nat :=
  strBytes "WebPush: info" ++ [0] ++ subscriberPubBytes ++ ephemeralPubBytes

/-- Spec wording: first HKDF-SHA256 extract-and-expand, salt = subscriber
auth secret, IKM = ECDH shared secret, info as above, 32 bytes out. -/
def ikm (authSecret sharedSecret subscriberPubBytes ephemeralPubBytes : List Nat) :
    Option (List Nat) :=
  hkdfSha256 authSecret sharedSecret (info subscriberPubBytes ephemeralPubBytes) 32

/-- Spec wording: second HKDF-SHA256 with the random message salt as HKDF
salt and `ikm` as key, info `"Content-Encoding: aes128gcm" ‖ 0x00`,
16 bytes out. -/
def cek (messageSalt ikmBytes : List Nat) : Option (List Nat) :=
  hkdfSha256 messageSalt ikmBytes (strBytes "Content-Encoding: aes128gcm" ++ [0]) 16

/-- Spec wording: same second HKDF, info `"Content-Encoding: nonce" ‖ 0x00`,
12 bytes out. -/
def nonce (messageSalt ikmBytes : List Nat) : Option (List Nat) :=
  hkdfSha256 messageSalt ikmBytes (strBytes "Content-Encoding: nonce" ++ [0]) 12

end RFC8291Spec

/-- Claim C2: the key schedule of every encryption call is the RFC 8291
two-round HKDF-SHA256 exactly as the spec words it: the first HKDF uses the
auth secret as salt and the ECDH shared secret as IKM, expanding with
`info = "WebPush: info" ‖ 0x00 ‖ ua_pub(65) ‖ eph_pub(65)` to a 32-byte
`ikm`; the second uses the random 16-byte message salt as salt and `ikm` as
key, expanding to the 16-byte CEK and the 12-byte nonce under the
`Content-Encoding` infos — and the payload's ciphertext is produced under
exactly that CEK and nonce. -/
theorem claim_C2_key_schedule (draw : EncDraw) (pt : List Nat) (uaPub : Nat × Nat)
    (auth : List Nat) (serverPub : Nat × Nat)
    (hsp : P256.smulAffine draw.ephSecret P256.G = some serverPub) :
    ∃ ikm cek nonce,
      RFC8291Spec.ikm auth (P256.ecdhSharedBytes draw.ephSecret uaPub)
        (P256.sec1Encode uaPub) (P256.sec1Encode serverPub) = some ikm ∧
      ikm.length = 32 ∧
      RFC8291Spec.cek draw.salt ikm = some cek ∧ cek.length = 16 ∧
      RFC8291Spec.nonce draw.salt ikm = some nonce ∧ nonce.length = 12 ∧
      (P256.sec1Encode uaPub).length = 65 ∧
      (P256.sec1Encode serverPub).length = 65 ∧
      encryptPayload draw pt uaPub auth =
        some (draw.salt ++ (beBytes 4 4096 ++ ([65] ++ (P256.sec1Encode serverPub ++
          aes128GcmEncrypt cek nonce (pt ++ [2]))))) := by
  obtain ⟨ikm, cek, nn, hikm, hikml, hcek, hcekl, hnn, hnnl, heq⟩ :=
    encryptPayload_eq draw pt uaPub auth serverPub hsp
  exact ⟨ikm, cek, nn, hikm, hikml, hcek, hcekl, hnn, hnnl,
    P256.sec1Encode_length uaPub, P256.sec1Encode_length serverPub, heq⟩

/-- Witness for C2 at ephemeral scalar 1, subscriber key `G`. -/
theorem claim_C2_key_schedule_witness :
    ∃ ikm cek nonce,
      RFC8291Spec.ikm [3, 3, 3]
        (P256.ecdhSharedBytes (⟨1, List.replicate 16 2⟩ : EncDraw).ephSecret P256.G)
        (P256.sec1Encode P256.G) (P256.sec1Encode P256.G) = some ikm ∧
      ikm.length = 32 ∧
      RFC8291Spec.cek (⟨1, List.replicate 16 2⟩ : EncDraw).salt ikm = some cek ∧
      cek.length = 16 ∧
      RFC8291Spec.nonce (⟨1, List.replicate 16 2⟩ : EncDraw).salt ikm = some nonce ∧
      nonce.length = 12 ∧
      (P256.sec1Encode P256.G).length = 65 ∧
      (P256.sec1Encode P256.G).length = 65 ∧
      encryptPayload ⟨1, List.replicate 16 2⟩ [120] P256.G [3, 3, 3] =
        some ((⟨1, List.replicate 16 2⟩ : EncDraw).salt ++ (beBytes 4 4096 ++
          ([65] ++ (P256.sec1Encode P256.G ++
            aes128GcmEncrypt cek nonce ([120] ++ [2]))))) :=
  claim_C2_key_schedule ⟨1, List.replicate 16 2⟩ [120] P256.G [3, 3, 3] P256.G
    P256.smul_one_g

/-- Claim C3: the byte string fed to AES-128-GCM is exactly the plaintext
with a single `0x02` delimiter appended (no other padding), the ciphertext
portion of the payload is its AES-128-GCM encryption under the derived CEK
and nonce, and that portion is exactly `plaintext length + 1 + 16` bytes. -/
theorem claim_C3_aead_input (draw : EncDraw) (pt : List Nat) (uaPub : Nat × Nat)
    (auth : List Nat) (serverPub : Nat × Nat)
    (hsalt : draw.salt.length = 16)
    (hsp : P256.smulAffine draw.ephSecret P256.G = some serverPub) :
    ∃ payload ikm cek nonce,
      encryptPayload draw pt uaPub auth = some payload ∧
      hkdfSha256 auth (P256.ecdhSharedBytes draw.ephSecret uaPub)
        (webpushInfo uaPub serverPub) 32 = some ikm ∧
      hkdfSha256 draw.salt ikm cencAes128gcmInfo 16 = some cek ∧
      hkdfSha256 draw.salt ikm cencNonceInfo 12 = some nonce ∧
      payload.drop 86 = aes128GcmEncrypt cek nonce (pt ++ [0x02]) ∧
      (pt ++ [0x02]).length = pt.length + 1 ∧
      (payload.drop 86).length = pt.length + 1 + 16 := by
  obtain ⟨ikm, cek, nn, hikm, hikml, hcek, hcekl, hnn, hnnl, heq⟩ :=
    encryptPayload_eq draw pt uaPub auth serverPub hsp
  obtain ⟨s1, s2, s3, s4, s5⟩ :=
    payload_split draw.salt (beBytes 4 4096) [65] (P256.sec1Encode serverPub)
      (aes128GcmEncrypt cek nn (pt ++ [2])) hsalt (beBytes_length 4 4096) rfl
      (P256.sec1Encode_length serverPub)
  refine ⟨_, ikm, cek, nn, heq, hikm, hcek, hnn, s5, by simp, ?_⟩
  rw [s5, AES.aes128GcmEncrypt_length]
  simp

/-- Witness for C3 at ephemeral scalar 1 and a 3-byte plaintext. -/
theorem claim_C3_aead_input_witness :
    ∃ payload ikm cek nonce,
      encryptPayload ⟨1, List.replicate 16 4⟩ [10, 20, 30] P256.G [8] = some payload ∧
      hkdfSha256 [8]
        (P256.ecdhSharedBytes (⟨1, List.replicate 16 4⟩ : EncDraw).ephSecret P256.G)
        (webpushInfo P256.G P256.G) 32 = some ikm ∧
      hkdfSha256 (⟨1, List.replicate 16 4⟩ : EncDraw).salt ikm cencAes128gcmInfo 16 =
        some cek ∧
      hkdfSha256 (⟨1, List.replicate 16 4⟩ : EncDraw).salt ikm cencNonceInfo 12 =
        some nonce ∧
      payload.drop 86 = aes128GcmEncrypt cek nonce ([10, 20, 30] ++ [0x02]) ∧
      ([10, 20, 30] ++ [0x02]).length = [10, 20, 30].length + 1 ∧
      (payload.drop 86).length = [10, 20, 30].length + 1 + 16 :=
  claim_C3_aead_input ⟨1, List.replicate 16 4⟩ [10, 20, 30] P256.G [8] P256.G
    (by decide) P256.smul_one_g

/-- `2 · G`, for concrete distinct-ephemeral-key witnesses. -/
theorem smul_two_g :
    P256.smulAffine 2 P256.G =
      some (0x7cf27b188d034f7e8a52380304b51ac3c08969e277f21b35a60b48fc47669978,
            0x07775510db8ed040293d9ac69f7430dbba7dade63ce982299e04b79d227873d1) := by
  decide

/-- Counterexample to claim C9 as stated: two runs on identical plaintext,
subscriber key and auth secret whose random draws differ (ephemeral scalar
1 vs 2) but whose salt draws coincide produce payloads with EQUAL salt
fields — so differing draws do not imply "different salts, different
ephemeral public keys, and different ciphertexts". -/
theorem claim_C9_counterexample :
    ∃ p1 p2,
      encryptPayload ⟨1, List.replicate 16 0⟩ [104] P256.G [5] = some p1 ∧
      encryptPayload ⟨2, List.replicate 16 0⟩ [104] P256.G [5] = some p2 ∧
      (⟨1, List.replicate 16 0⟩ : EncDraw) ≠ ⟨2, List.replicate 16 0⟩ ∧
      p1.take 16 = p2.take 16 := by
  obtain ⟨_, _, _, _, _, _, _, _, _, heq1⟩ :=
    encryptPayload_eq ⟨1, List.replicate 16 0⟩ [104] P256.G [5] P256.G P256.smul_one_g
  obtain ⟨_, _, _, _, _, _, _, _, _, heq2⟩ :=
    encryptPayload_eq ⟨2, List.replicate 16 0⟩ [104] P256.G [5] _ smul_two_g
  refine ⟨_, _, heq1, heq2, by decide, ?_⟩
  rw [take_append_exact (by decide : (⟨1, List.replicate 16 0⟩ : EncDraw).salt.length = 16),
    take_append_exact (by decide : (⟨2, List.replicate 16 0⟩ : EncDraw).salt.length = 16)]

/-- Claim C9 (amended): `encrypt_payload` embeds its random draw in the
payload: runs whose salt draws differ produce payloads differing already in
the salt field (bytes 0..16), and runs whose ephemeral public keys differ
produce payloads differing in the key-id field (bytes 21..86); in either
case the payloads differ, so the output is not a deterministic function of
the non-random inputs. (The unamended claim also asserted different
ciphertexts whenever the draws differ at all; the counterexample refutes
that conjunction, and ciphertext inequality is a cryptographic
collision-freeness property outside this embedding.) -/
theorem claim_C9_randomness (pt : List Nat) (uaPub : Nat × Nat) (auth : List Nat)
    (d1 d2 : EncDraw) (sp1 sp2 : Nat × Nat) (p1 p2 : List Nat)
    (hs1 : d1.salt.length = 16) (hs2 : d2.salt.length = 16)
    (h1 : P256.smulAffine d1.ephSecret P256.G = some sp1)
    (h2 : P256.smulAffine d2.ephSecret P256.G = some sp2)
    (he1 : encryptPayload d1 pt uaPub auth = some p1)
    (he2 : encryptPayload d2 pt uaPub auth = some p2) :
    (d1.salt ≠ d2.salt → p1.take 16 ≠ p2.take 16) ∧
    (P256.sec1Encode sp1 ≠ P256.sec1Encode sp2 →
      (p1.drop 21).take 65 ≠ (p2.drop 21).take 65) ∧
    ((d1.salt ≠ d2.salt ∨ P256.sec1Encode sp1 ≠ P256.sec1Encode sp2) → p1 ≠ p2) := by
  obtain ⟨_, _, nn1, _, _, _, _, _, _, heq1⟩ := encryptPayload_eq d1 pt uaPub auth sp1 h1
  obtain ⟨_, _, nn2, _, _, _, _, _, _, heq2⟩ := encryptPayload_eq d2 pt uaPub auth sp2 h2
  rw [he1] at heq1
  rw [he2] at heq2
  obtain ⟨a1, b1, c1, e1, f1⟩ :=
    payload_split d1.salt (beBytes 4 4096) [65] (P256.sec1Encode sp1) _ hs1
      (beBytes_length 4 4096) rfl (P256.sec1Encode_length sp1)
  obtain ⟨a2, b2, c2, e2, f2⟩ :=
    payload_split d2.salt (beBytes 4 4096) [65] (P256.sec1Encode sp2) _ hs2
      (beBytes_length 4 4096) rfl (P256.sec1Encode_length sp2)
  have hp1 : p1 = d1.salt ++ (beBytes 4 4096 ++ ([65] ++ (P256.sec1Encode sp1 ++ _))) :=
    Option.some.inj heq1
  have hp2 : p2 = d2.salt ++ (beBytes 4 4096 ++ ([65] ++ (P256.sec1Encode sp2 ++ _))) :=
    Option.some.inj heq2
  have t1 : p1.take 16 = d1.salt := by rw [hp1]; exact a1
  have t2 : p2.take 16 = d2.salt := by rw [hp2]; exact a2
  have k1 : (p1.drop 21).take 65 = P256.sec1Encode sp1 := by rw [hp1]; exact e1
  have k2 : (p2.drop 21).take 65 = P256.sec1Encode sp2 := by rw [hp2]; exact e2
  refine ⟨fun hs hc => hs ?_, fun hk hc => hk ?_, fun hor hc => ?_⟩
  · rw [← t1, ← t2, hc]
  · rw [← k1, ← k2, hc]
  · rcases hor with hs | hk
    · exact hs (by rw [← t1, ← t2, hc])
    · exact hk (by rw [← k1, ← k2, hc])

/-- Witness for C9 (amended) at ephemeral scalars 1 and 2 and distinct
salts: the payloads differ in both the salt and key-id fields. -/
theorem claim_C9_randomness_witness :
    ∃ p1 p2,
      encryptPayload ⟨1, List.replicate 16 0⟩ [104] P256.G [5] = some p1 ∧
      encryptPayload ⟨2, List.replicate 16 9⟩ [104] P256.G [5] = some p2 ∧
      p1.take 16 ≠ p2.take 16 ∧
      (p1.drop 21).take 65 ≠ (p2.drop 21).take 65 ∧ p1 ≠ p2 := by
  obtain ⟨_, _, _, _, _, _, _, _, _, heq1⟩ :=
    encryptPayload_eq ⟨1, List.replicate 16 0⟩ [104] P256.G [5] P256.G P256.smul_one_g
  obtain ⟨_, _, _, _, _, _, _, _, _, heq2⟩ :=
    encryptPayload_eq ⟨2, List.replicate 16 9⟩ [104] P256.G [5] _ smul_two_g
  have main := claim_C9_randomness [104] P256.G [5] ⟨1, List.replicate 16 0⟩
    ⟨2, List.replicate 16 9⟩ P256.G
    (0x7cf27b188d034f7e8a52380304b51ac3c08969e277f21b35a60b48fc47669978,
     0x07775510db8ed040293d9ac69f7430dbba7dade63ce982299e04b79d227873d1) _ _
    (by decide) (by decide) P256.smul_one_g smul_two_g heq1 heq2
  exact ⟨_, _, heq1, heq2, main.1 (by decide), main.2.1 (by decide),
    main.2.2 (Or.inl (by decide))⟩

/-! ### Claim C5: the batch loop -/

/-- If no call in the batch panics, the loop returns a full result list:
one slot per subscription, slot `j` holding exactly the `send_one` result
of the `j`-th subscription under the `(i0 + j)`-th call's effects. -/
theorem sendAllAux_some (env : Nat → SendEnv) (msg : List Nat) (vapid : VapidConfig) :
    ∀ (subs : List Subscription) (i0 : Nat),
      (∀ (j : Nat) (hj : j < subs.length),
        sendOne (env (i0 + j)).draw (env (i0 + j)).now (env (i0 + j)).http
          (subs.get ⟨j, hj⟩) msg vapid ≠ none) →
      ∃ results, sendAllAux env msg vapid i0 subs = some results ∧
        results.length = subs.length ∧
        ∀ (j : Nat) (hj : j < subs.length),
          results[j]? =
            sendOne (env (i0 + j)).draw (env (i0 + j)).now (env (i0 + j)).http
              (subs.get ⟨j, hj⟩) msg vapid := by
  intro subs
  induction subs with
  | nil =>
    intro i0 _
    exact ⟨[], rfl, rfl, fun j hj => absurd hj (by simp)⟩
  | cons s rest ih =>
    intro i0 hnp
    have h0 : sendOne (env i0).draw (env i0).now (env i0).http s msg vapid ≠ none := by
      have := hnp 0 (by simp)
      simpa using this
    obtain ⟨r, hr⟩ := Option.ne_none_iff_exists.mp h0
    obtain ⟨rs, hrs, hlen, hget⟩ := ih (i0 + 1) (fun j hj => by
      have := hnp (j + 1) (by simpa using Nat.succ_lt_succ hj)
      have harith : i0 + (j + 1) = i0 + 1 + j := by omega
      rw [harith] at this
      exact this)
    refine ⟨r :: rs, ?_, by simp [hlen], fun j hj => ?_⟩
    · simp only [sendAllAux, ← hr, hrs]
    · cases j with
      | zero =>
        simp only [List.getElem?_cons_zero, List.get]
        rw [Nat.add_zero]
        exact hr
      | succ j =>
        have := hget j (by simpa using Nat.lt_of_succ_lt_succ hj)
        simp only [List.getElem?_cons_succ, this, List.get]
        have harith : i0 + 1 + j = i0 + (j + 1) := by omega
        rw [harith]

/-- If some call in the batch panics, the unwind leaves no result list. -/
theorem sendAllAux_panic (env : Nat → SendEnv) (msg : List Nat) (vapid : VapidConfig) :
    ∀ (subs : List Subscription) (i0 : Nat),
      (∃ (j : Nat) (hj : j < subs.length),
        sendOne (env (i0 + j)).draw (env (i0 + j)).now (env (i0 + j)).http
          (subs.get ⟨j, hj⟩) msg vapid = none) →
      sendAllAux env msg vapid i0 subs = none := by
  intro subs
  induction subs with
  | nil =>
    intro i0 h
    obtain ⟨j, hj, _⟩ := h
    exact absurd hj (by simp)
  | cons s rest ih =>
    intro i0 h
    obtain ⟨j, hj, hpanic⟩ := h
    cases j with
    | zero =>
      rw [Nat.add_zero] at hpanic
      simp only [sendAllAux, List.get] at hpanic ⊢
      rw [hpanic]
    | succ j =>
      have hrest : sendAllAux env msg vapid (i0 + 1) rest = none := by
        refine ih (i0 + 1) ⟨j, by simpa using Nat.lt_of_succ_lt_succ hj, ?_⟩
        have harith : i0 + 1 + j = i0 + (j + 1) := by omega
        rw [harith]
        exact hpanic
      simp only [sendAllAux, hrest]
      cases sendOne (env i0).draw (env i0).now (env i0).http s msg vapid <;> rfl

/-- Counterexample to claim C5 as stated: `send_all` does NOT always return
a full result list. A subscription that passes key decoding, encryption and
origin extraction, together with a VAPID private key decoding to ≠ 32 bytes
(here the empty string, the unvalidated `unwrap_or_default` config value),
makes `send_one` panic at `SigningKey::from_bytes(...into())` — the
`GenericArray::from_slice` length assertion — unwinding the whole batch
with no result list. -/
theorem claim_C5_counterexample :
    sendAll (fun _ => ⟨⟨1, List.replicate 16 0⟩, 0, .response 201 none⟩)
      [⟨strBytes "https://push.example.com/sub1", b64Encode (P256.sec1Encode P256.G),
        strBytes "AAAA"⟩]
      [104] ⟨strBytes "mailto:a@b.c", [], []⟩ = none ∧
    ∀ results,
      sendAll (fun _ => ⟨⟨1, List.replicate 16 0⟩, 0, .response 201 none⟩)
        [⟨strBytes "https://push.example.com/sub1", b64Encode (P256.sec1Encode P256.G),
          strBytes "AAAA"⟩]
        [104] ⟨strBytes "mailto:a@b.c", [], []⟩ ≠ some results := by
  obtain ⟨_, _, _, _, _, _, _, _, _, heq⟩ :=
    encryptPayload_eq ⟨1, List.replicate 16 0⟩ [104] P256.G [0, 0, 0] P256.G
      P256.smul_one_g
  have hone : sendOne ⟨1, List.replicate 16 0⟩ 0 (.response 201 none)
      ⟨strBytes "https://push.example.com/sub1", b64Encode (P256.sec1Encode P256.G),
        strBytes "AAAA"⟩ [104] ⟨strBytes "mailto:a@b.c", [], []⟩ = none := by
    simp only [sendOne,
      (by decide : b64Decode (b64Encode (P256.sec1Encode P256.G)) =
        some (P256.sec1Encode P256.G)),
      (by decide : b64Decode (strBytes "AAAA") = some [0, 0, 0]),
      (by decide : P256.fromSec1 (P256.sec1Encode P256.G) = some P256.G), heq,
      (by decide : extractOrigin (strBytes "https://push.example.com/sub1") =
        some (strBytes "https://push.example.com")),
      (by decide : buildVapidJwt 0 (strBytes "https://push.example.com")
        (strBytes "mailto:a@b.c") [] = .panic)]
  refine ⟨?_, ?_⟩
  · show sendAllAux _ _ _ 0 _ = none
    simp only [sendAllAux, hone]
  · intro results hcontra
    rw [show sendAll (fun _ => ⟨⟨1, List.replicate 16 0⟩, 0, .response 201 none⟩)
        [⟨strBytes "https://push.example.com/sub1", b64Encode (P256.sec1Encode P256.G),
          strBytes "AAAA"⟩]
        [104] ⟨strBytes "mailto:a@b.c", [], []⟩ = none from by
      show sendAllAux _ _ _ 0 _ = none
      simp only [sendAllAux, hone]] at hcontra
    exact Option.noConfusion hcontra

/-- Claim C5 (amended): `send_all` returns exactly one result per
subscription, in input order, the `j`-th result being `send_one` of the
`j`-th subscription under the `j`-th call's effects alone — so one
subscription's failure never prevents the remaining subscriptions from
being attempted, and the batch yields a full result list even if every
individual send fails — PROVIDED no `send_one` call panics. A panic (a
VAPID private key decoding to ≠ 32 bytes reaching JWT construction, or a
signing failure) unwinds the batch, which then yields no result list at
all. -/
theorem claim_C5_send_all (env : Nat → SendEnv) (subs : List Subscription)
    (msg : List Nat) (vapid : VapidConfig) :
    ((∀ (j : Nat) (hj : j < subs.length),
        sendOne (env j).draw (env j).now (env j).http (subs.get ⟨j, hj⟩) msg vapid ≠
          none) →
      ∃ results, sendAll env subs msg vapid = some results ∧
        results.length = subs.length ∧
        ∀ (j : Nat) (hj : j < subs.length),
          results[j]? =
            sendOne (env j).draw (env j).now (env j).http (subs.get ⟨j, hj⟩)
              msg vapid) ∧
    ((∃ (j : Nat) (hj : j < subs.length),
        sendOne (env j).draw (env j).now (env j).http (subs.get ⟨j, hj⟩) msg vapid =
          none) →
      sendAll env subs msg vapid = none) := by
  constructor
  · intro hnp
    obtain ⟨results, hr, hlen, hget⟩ := sendAllAux_some env msg vapid subs 0
      (fun j hj => by rw [Nat.zero_add]; exact hnp j hj)
    refine ⟨results, hr, hlen, fun j hj => ?_⟩
    have := hget j hj
    rwa [Nat.zero_add] at this
  · intro hp
    obtain ⟨j, hj, hpanic⟩ := hp
    exact sendAllAux_panic env msg vapid subs 0 ⟨j, hj, by rw [Nat.zero_add]; exact hpanic⟩

/-- Witness for C5 (amended): a three-subscription batch in which every
send fails (a 64-byte key, undecodable base64, an off-curve point) — no
call reaches JWT construction, so none panics — yields a full ordered
result list of three errors, slot 1 being `send_one` of subscription 1. -/
theorem claim_C5_send_all_witness :
    ∃ results,
      sendAll (fun _ => ⟨⟨1, List.replicate 16 0⟩, 0, .response 201 none⟩)
        [⟨strBytes "https://a.example/1", List.replicate 86 65, [65, 65]⟩,
         ⟨strBytes "https://a.example/2", [33], [65, 65]⟩,
         ⟨strBytes "https://a.example/3",
           b64Encode (4 :: (beBytes 32 1 ++ beBytes 32 1)), [65, 65]⟩]
        [104] ⟨[], [], []⟩ = some results ∧
      results.length = 3 ∧
      results[1]? =
        sendOne ⟨1, List.replicate 16 0⟩ 0 (.response 201 none)
          ⟨strBytes "https://a.example/2", [33], [65, 65]⟩ [104] ⟨[], [], []⟩ := by
  obtain ⟨results, hr, hlen, hget⟩ :=
    (claim_C5_send_all (fun _ => ⟨⟨1, List.replicate 16 0⟩, 0, .response 201 none⟩)
      [⟨strBytes "https://a.example/1", List.replicate 86 65, [65, 65]⟩,
       ⟨strBytes "https://a.example/2", [33], [65, 65]⟩,
       ⟨strBytes "https://a.example/3",
         b64Encode (4 :: (beBytes 32 1 ++ beBytes 32 1)), [65, 65]⟩]
      [104] ⟨[], [], []⟩).1 (by
        intro j hj
        have hj3 : j < 3 := hj
        interval_cases j
        · exact (by decide : sendOne ⟨1, List.replicate 16 0⟩ 0 (.response 201 none)
            ⟨strBytes "https://a.example/1", List.replicate 86 65, [65, 65]⟩
            [104] ⟨[], [], []⟩ ≠ none)
        · exact (by decide : sendOne ⟨1, List.replicate 16 0⟩ 0 (.response 201 none)
            ⟨strBytes "https://a.example/2", [33], [65, 65]⟩
            [104] ⟨[], [], []⟩ ≠ none)
        · exact (by decide : sendOne ⟨1, List.replicate 16 0⟩ 0 (.response 201 none)
            ⟨strBytes "https://a.example/3",
              b64Encode (4 :: (beBytes 32 1 ++ beBytes 32 1)), [65, 65]⟩
            [104] ⟨[], [], []⟩ ≠ none))
  exact ⟨results, hr, hlen, hget 1 (by decide)⟩

/-! ### Claims C7 and C8 -/

/-- The `":{port}"` suffix `extract_origin` appends when `port()` is set. -/
def portSuffix : Option Nat → List Nat
  | some pv => 58 :: natDec pv
  | none => []

/-- Counterexample to claim C7 as stated: `extract_origin` does NOT append
`":port"` for every URL carrying an explicit port — the `url` crate's
`port()` (per the WHATWG URL standard) returns `None` for a scheme's
default port, so an explicit `:443` on an https URL is dropped. -/
theorem claim_C7_counterexample :
    extractOrigin (strBytes "https://push.example.com:443/xyz") =
      some (strBytes "https://push.example.com") ∧
    extractOrigin (strBytes "https://push.example.com:443/xyz") ≠
      some (strBytes "https://push.example.com:443") := by
  constructor
  · decide
  · decide

/-- Claim C7 (amended): `extract_origin` returns `scheme ++ "://" ++ host`,
appending `":port"` exactly when the URL carries an explicit **non-default**
port; the two spec examples hold, and an unparsable URL or a URL without a
host yields an error, not a panic (modelled: `none`). -/
theorem claim_C7_origin (s : List Nat) (u : UrlModel.ParsedUrl) (h : List Nat)
    (hu : UrlModel.urlParse s = some u) (hh : u.host = some h) :
    extractOrigin s = some (u.scheme ++ strBytes "://" ++ h ++ portSuffix u.port) ∧
    extractOrigin (strBytes "https://fcm.googleapis.com/fcm/send/abc123") =
      some (strBytes "https://fcm.googleapis.com") ∧
    extractOrigin (strBytes "https://push.example.com:8443/xyz") =
      some (strBytes "https://push.example.com:8443") ∧
    extractOrigin (strBytes "not a url") = none ∧
    extractOrigin (strBytes "mailto:admin@example.com") = none := by
  refine ⟨?_, by decide, by decide, by decide, by decide⟩
  unfold extractOrigin
  rw [hu]
  cases u with
  | mk scheme host port =>
    simp only at hh
    subst hh
    cases port with
    | none => simp [portSuffix]
    | some pv => simp [portSuffix]

/-- Witness for C7 at a URL exercising userinfo, a non-default port, and
path/query/fragment stripping. -/
theorem claim_C7_origin_witness :
    extractOrigin (strBytes "http://user@host.example:9001/p?q") =
      some (strBytes "http" ++ strBytes "://" ++ strBytes "host.example" ++
        portSuffix (some 9001)) ∧
    extractOrigin (strBytes "not a url") = none := by
  have happ := claim_C7_origin (strBytes "http://user@host.example:9001/p?q")
    ⟨strBytes "http", some (strBytes "host.example"), some 9001⟩
    (strBytes "host.example") (by decide) rfl
  exact ⟨happ.1, happ.2.2.2.1⟩

/-- Claim C8: a subscription whose `p256dh` decodes to bytes that are not a
valid P-256 point (wrong length, or a point not on the curve) makes
`send_one` return the invalid-key error for EVERY random draw, clock value
and network behaviour — i.e. before any encryption or HTTP request can
influence the outcome — and never panics: the result is a returned error
(`some`), while a panic would be `none`. -/
theorem claim_C8_invalid_key (sub : Subscription) (msg : List Nat)
    (vapid : VapidConfig) (pb ab : List Nat)
    (hp : b64Decode sub.p256dh = some pb) (ha : b64Decode sub.auth = some ab)
    (hk : P256.fromSec1 pb = none) :
    ∀ (draw : EncDraw) (now : Int) (http : HttpOutcome),
      sendOne draw now http sub msg vapid = some (.error .invalidKey) := by
  intro draw now http
  simp only [sendOne, hp, ha, hk]

/-- Witness for C8: a 64-byte key (base64url `"A" * 86`, i.e. 64 zero
bytes) and a 65-byte off-curve point both yield `invalidKey`, under
arbitrary distinct draws and network outcomes. -/
theorem claim_C8_invalid_key_witness :
    sendOne ⟨1, List.replicate 16 0⟩ 0 (.response 201 none)
      ⟨strBytes "https://push.example.com/a", List.replicate 86 65, [65, 65]⟩
      [104] ⟨[], [], []⟩ = some (.error .invalidKey) ∧
    sendOne ⟨2, List.replicate 16 1⟩ 5 .transportError
      ⟨strBytes "https://push.example.com/b",
        b64Encode (4 :: (beBytes 32 1 ++ beBytes 32 1)), [65, 65]⟩
      [104] ⟨[], [], []⟩ = some (.error .invalidKey) :=
  ⟨claim_C8_invalid_key _ _ _ (List.replicate 64 0) [0]
      (by decide) (by decide) (by decide) _ _ _,
   claim_C8_invalid_key _ _ _ (4 :: (beBytes 32 1 ++ beBytes 32 1)) [0]
      (by decide) (by decide) (by decide) _ _ _⟩

/-! ### Claim C4: VAPID JWT structure -/

theorem joinComma_bytes :
    ∀ (ls : List (List Nat)), (∀ l ∈ ls, allBytes l) → allBytes (joinComma ls)
  | [], _ => by intro b hb; simp [joinComma] at hb
  | [x], h => by simpa [joinComma] using h x (by simp)
  | x :: y :: rest, h => by
    intro b hb
    have hb2 : b ∈ x ++ 44 :: joinComma (y :: rest) := hb
    rcases List.mem_append.mp hb2 with hb3 | hb3
    · exact h x (by simp) b hb3
    · rcases List.mem_cons.mp hb3 with hb4 | hb4
      · omega
      · exact joinComma_bytes (y :: rest) (fun l hl => h l (by simp [hl])) b hb4

theorem field_bytes (k : List Nat) (v : JVal) (hk : allBytes k)
    (hv : allBytes (jValSer v)) : allBytes (jstr k ++ 58 :: jValSer v) := by
  intro b hb
  rcases List.mem_append.mp hb with h | h
  · exact jstr_bytes k hk b h
  · rcases List.mem_cons.mp h with h | h
    · omega
    · exact hv b h

theorem vapidPayloadJson_bytes (aud subj : List Nat) (e : Int)
    (haud : allBytes aud) (hsub : allBytes subj) :
    allBytes (vapidPayloadJson aud e subj) := by
  unfold vapidPayloadJson jObjSer
  intro b hb
  rcases List.mem_cons.mp hb with hb | hb
  · omega
  rcases List.mem_append.mp hb with hb | hb
  · refine joinComma_bytes _ ?_ b hb
    intro l hl
    simp only [List.map_cons, List.map_nil, List.mem_cons, List.not_mem_nil,
      or_false] at hl
    rcases hl with hl | hl | hl
    · exact hl ▸ field_bytes _ _ (by decide) (jstr_bytes aud haud)
    · exact hl ▸ field_bytes _ _ (by decide) (intDec_bytes e)
    · exact hl ▸ field_bytes _ _ (by decide) (jstr_bytes subj hsub)
  · simp at hb
    omega

/-- The success shape of `build_vapid_jwt`: given the key material decodes
and the ES256 signature of the signing input, the JWT is
`header_b64.payload_b64.sig_b64`. -/
theorem buildVapidJwt_eq (now : Int) (aud subj privB64 priv : List Nat) (r s : Nat)
    (hdec : b64Decode privB64 = some priv)
    (hlen : priv.length = 32)
    (hd : 1 ≤ natFromBytes priv ∧ natFromBytes priv < P256.nOrd)
    (hsig : P256.ecdsaSign (natFromBytes priv)
      (b64Encode vapidHeaderJson ++ [46] ++
        b64Encode (vapidPayloadJson aud (now + 3600) subj)) = some (r, s)) :
    buildVapidJwt now aud subj privB64 =
      .ok ((b64Encode vapidHeaderJson ++ [46] ++
        b64Encode (vapidPayloadJson aud (now + 3600) subj)) ++ [46] ++
        b64Encode (beBytes 32 r ++ beBytes 32 s)) := by
  simp only [buildVapidJwt, hdec]
  rw [if_pos hlen, if_pos hd]
  simp only [hsig]

/-- Claim C4: the JWT returned by `build_vapid_jwt` is exactly three
dot-joined base64url-without-padding segments: segment 1 decodes to the
serialized header object (whose bytes are the JSON text with single key
`alg` and value `ES256`), segment 2 decodes to the serialized JSON object
with exactly the keys `aud` (the audience), `exp` (= issue time + 3600) and
`sub` (the subject), and segment 3 decodes to exactly 64 bytes — the raw
big-endian `r ‖ s` ECDSA P-256/SHA-256 signature (not DER) over the UTF-8
bytes of `header_b64 ++ "." ++ payload_b64`. Dot-freeness of all three
segments makes the dot-split unambiguous. -/
theorem claim_C4_vapid_jwt (now : Int) (aud subj privB64 priv : List Nat) (r s : Nat)
    (haud : allBytes aud) (hsub : allBytes subj)
    (hdec : b64Decode privB64 = some priv)
    (hlen : priv.length = 32)
    (hd : 1 ≤ natFromBytes priv ∧ natFromBytes priv < P256.nOrd)
    (hsig : P256.ecdsaSign (natFromBytes priv)
      (b64Encode vapidHeaderJson ++ [46] ++
        b64Encode (vapidPayloadJson aud (now + 3600) subj)) = some (r, s)) :
    ∃ s1 s2 s3,
      buildVapidJwt now aud subj privB64 = .ok (s1 ++ [46] ++ (s2 ++ [46] ++ s3)) ∧
      46 ∉ s1 ∧ 46 ∉ s2 ∧ 46 ∉ s3 ∧
      b64Decode s1 = some vapidHeaderJson ∧
      vapidHeaderJson =
        [123, 34, 97, 108, 103, 34, 58, 34, 69, 83, 50, 53, 54, 34, 125] ∧
      b64Decode s2 = some (vapidPayloadJson aud (now + 3600) subj) ∧
      b64Decode s3 = some (beBytes 32 r ++ beBytes 32 s) ∧
      (beBytes 32 r ++ beBytes 32 s).length = 64 ∧
      P256.ecdsaSign (natFromBytes priv) (s1 ++ [46] ++ s2) = some (r, s) := by
  refine ⟨b64Encode vapidHeaderJson,
    b64Encode (vapidPayloadJson aud (now + 3600) subj),
    b64Encode (beBytes 32 r ++ beBytes 32 s), ?_,
    b64Encode_no_dot _, b64Encode_no_dot _, b64Encode_no_dot _,
    b64_roundtrip _ (by decide),
    header_json_bytes,
    b64_roundtrip _ (vapidPayloadJson_bytes aud subj (now + 3600) haud hsub),
    b64_roundtrip _ (allBytes_append (beBytes_bytes 32 r) (beBytes_bytes 32 s)),
    by simp [beBytes_length],
    hsig⟩
  rw [buildVapidJwt_eq now aud subj privB64 priv r s hdec hlen hd hsig]
  simp [List.append_assoc]

/-- Witness for C4 at the RFC 6979 sample key, audience
`https://example.com`, subject `mailto:admin@example.com`, issue time
1000000 (so `exp` = 1003600); `r` and `s` are the resulting deterministic
ES256 signature components. -/
theorem claim_C4_vapid_jwt_witness :
    ∃ s1 s2 s3,
      buildVapidJwt 1000000 (strBytes "https://example.com")
        (strBytes "mailto:admin@example.com")
        (b64Encode (beBytes 32
          0xc9afa9d845ba75166b5c215767b1d6934e50c3db36e89b127b8a622b120f6721)) =
        .ok (s1 ++ [46] ++ (s2 ++ [46] ++ s3)) ∧
      46 ∉ s1 ∧ 46 ∉ s2 ∧ 46 ∉ s3 ∧
      b64Decode s1 = some vapidHeaderJson ∧
      vapidHeaderJson =
        [123, 34, 97, 108, 103, 34, 58, 34, 69, 83, 50, 53, 54, 34, 125] ∧
      b64Decode s2 = some (vapidPayloadJson (strBytes "https://example.com")
        (1000000 + 3600) (strBytes "mailto:admin@example.com")) ∧
      b64Decode s3 = some (beBytes 32
          0xf8b26e309f481d0f981f8568d5133962a550dd0271082ebdaaf66c12557fc057 ++
        beBytes 32
          0xa43f6b289fdd93554316d6690414ff69b185aeb8fd4a5a0ccb782a7637fcb9f9) ∧
      (beBytes 32
          0xf8b26e309f481d0f981f8568d5133962a550dd0271082ebdaaf66c12557fc057 ++
        beBytes 32
          0xa43f6b289fdd93554316d6690414ff69b185aeb8fd4a5a0ccb782a7637fcb9f9).length =
        64 ∧
      P256.ecdsaSign (natFromBytes (beBytes 32
          0xc9afa9d845ba75166b5c215767b1d6934e50c3db36e89b127b8a622b120f6721))
        (s1 ++ [46] ++ s2) =
        some (0xf8b26e309f481d0f981f8568d5133962a550dd0271082ebdaaf66c12557fc057,
              0xa43f6b289fdd93554316d6690414ff69b185aeb8fd4a5a0ccb782a7637fcb9f9) :=
  claim_C4_vapid_jwt 1000000 (strBytes "https://example.com")
    (strBytes "mailto:admin@example.com") _ _ _ _
    (by decide) (by decide) (by decide) (by decide) (by decide) (by decide)

/-! ### Claim C6: HTTP response handling -/

/-- Claim C6: once the pre-request stages succeed (keys decode, subscriber
key parses, encryption succeeds, origin extracts, JWT builds — the only
scenario in which a response exists), `send_one` succeeds iff the response
status is 2xx (`StatusCode::is_success`, i.e. 200–299); every non-2xx
response yields an error carrying the status and the response body text
(the empty body when reading it fails); and a transport-level failure is
returned as an error. Each outcome is a returned value (`some`), not a
panic (`none`). -/
theorem claim_C6_response_handling (draw : EncDraw) (now : Int) (sub : Subscription)
    (msg : List Nat) (vapid : VapidConfig) (pb ab origin : List Nat) (ua : Nat × Nat)
    (hp : b64Decode sub.p256dh = some pb) (ha : b64Decode sub.auth = some ab)
    (hk : P256.fromSec1 pb = some ua)
    (he : (encryptPayload draw msg ua ab).isSome = true)
    (ho : extractOrigin sub.endpoint = some origin)
    (hj : (buildVapidJwt now origin vapid.subject vapid.privateKeyB64).isOk = true) :
    (∀ status body,
      sendOne draw now (.response status body) sub msg vapid = some (.ok ()) ↔
        200 ≤ status ∧ status ≤ 299) ∧
    (∀ status body, ¬(200 ≤ status ∧ status ≤ 299) →
      sendOne draw now (.response status body) sub msg vapid =
        some (.error (.endpointRejected status (body.getD [])))) ∧
    sendOne draw now .transportError sub msg vapid = some (.error .transport) := by
  rw [Option.isSome_iff_exists] at he
  rw [JwtResult.isOk_iff] at hj
  obtain ⟨payload, hpay⟩ := he
  obtain ⟨jwt, hjwt⟩ := hj
  refine ⟨fun status body => ?_, fun status body hns => ?_, ?_⟩
  · simp only [sendOne, hp, ha, hk, hpay, ho, hjwt]
    by_cases hs : 200 ≤ status ∧ status ≤ 299
    · simp [hs]
    · simp [hs]
  · simp only [sendOne, hp, ha, hk, hpay, ho, hjwt]
    rw [if_neg hns]
  · simp only [sendOne, hp, ha, hk, hpay, ho, hjwt]

/-- Witness for C6 at a concrete subscription (subscriber key `G`, RFC 6979
sample VAPID key): a 201 response succeeds, a 410 response with body
"gone" yields the status-and-body error, a 404 with an unreadable body
yields the empty-body error, and a transport failure propagates. -/
theorem claim_C6_response_handling_witness :
    (sendOne ⟨1, List.replicate 16 0⟩ 0 (.response 201 none)
      ⟨strBytes "https://push.example.com/sub1", b64Encode (P256.sec1Encode P256.G),
        strBytes "AAAA"⟩ [104, 105]
      ⟨strBytes "mailto:a@b.c", [],
        b64Encode (beBytes 32
          0xc9afa9d845ba75166b5c215767b1d6934e50c3db36e89b127b8a622b120f6721)⟩ =
      some (.ok ())) ∧
    (sendOne ⟨1, List.replicate 16 0⟩ 0 (.response 410 (some (strBytes "gone")))
      ⟨strBytes "https://push.example.com/sub1", b64Encode (P256.sec1Encode P256.G),
        strBytes "AAAA"⟩ [104, 105]
      ⟨strBytes "mailto:a@b.c", [],
        b64Encode (beBytes 32
          0xc9afa9d845ba75166b5c215767b1d6934e50c3db36e89b127b8a622b120f6721)⟩ =
      some (.error (.endpointRejected 410 (strBytes "gone")))) ∧
    (sendOne ⟨1, List.replicate 16 0⟩ 0 (.response 404 none)
      ⟨strBytes "https://push.example.com/sub1", b64Encode (P256.sec1Encode P256.G),
        strBytes "AAAA"⟩ [104, 105]
      ⟨strBytes "mailto:a@b.c", [],
        b64Encode (beBytes 32
          0xc9afa9d845ba75166b5c215767b1d6934e50c3db36e89b127b8a622b120f6721)⟩ =
      some (.error (.endpointRejected 404 []))) ∧
    (sendOne ⟨1, List.replicate 16 0⟩ 0 .transportError
      ⟨strBytes "https://push.example.com/sub1", b64Encode (P256.sec1Encode P256.G),
        strBytes "AAAA"⟩ [104, 105]
      ⟨strBytes "mailto:a@b.c", [],
        b64Encode (beBytes 32
          0xc9afa9d845ba75166b5c215767b1d6934e50c3db36e89b127b8a622b120f6721)⟩ =
      some (.error .transport)) := by
  obtain ⟨_, _, _, _, _, _, _, _, _, heq⟩ :=
    encryptPayload_eq ⟨1, List.replicate 16 0⟩ [104, 105] P256.G [0, 0, 0] P256.G
      P256.smul_one_g
  have hjwt := buildVapidJwt_eq 0 (strBytes "https://push.example.com")
    (strBytes "mailto:a@b.c")
    (b64Encode (beBytes 32
      0xc9afa9d845ba75166b5c215767b1d6934e50c3db36e89b127b8a622b120f6721))
    (beBytes 32 0xc9afa9d845ba75166b5c215767b1d6934e50c3db36e89b127b8a622b120f6721)
    0x028d902690a4674dd0dd15d33ccc2a20e1f71f9933d9f215a5d3acb588abfd97
    0x69faae309eda1acf7722c59a9d546b73c1ea8d61384825bd4ca91946189e7a60
    (by decide) (by decide) (by decide) (by decide)
  have main := claim_C6_response_handling ⟨1, List.replicate 16 0⟩ 0
    ⟨strBytes "https://push.example.com/sub1", b64Encode (P256.sec1Encode P256.G),
      strBytes "AAAA"⟩ [104, 105]
    ⟨strBytes "mailto:a@b.c", [],
      b64Encode (beBytes 32
        0xc9afa9d845ba75166b5c215767b1d6934e50c3db36e89b127b8a622b120f6721)⟩
    (P256.sec1Encode P256.G) [0, 0, 0] (strBytes "https://push.example.com") P256.G
    (by decide) (by decide) (by decide) (by rw [heq]; rfl) (by decide)
    (by rw [hjwt]; rfl)
  exact ⟨(main.1 201 none).mpr (by decide), main.2.1 410 (some (strBytes "gone"))
    (by decide), main.2.1 404 none (by decide), main.2.2⟩

end Weather
